import Mathlib

/-!
# Stopwatch: a registry of named timers

A shallow embedding of `src/Stopwatch.cpp` and the properties of it that the
specification states.

Modelling conventions.

* `long double` values are rationals (`ℚ`): arithmetic is exact, rounding is not
  modelled.  The one place where the source can produce a non-finite value, the
  division in `get_average_time` and `report`, returns a `LongDouble`.
* A method of the class is a function from the object before the call (and the
  readings of the platform clocks during the call) to an `Outcome`: the object
  after the call together with either the returned value or the exception thrown.
  The object after the call is kept also when the call throws, because `start`
  changes the map before it can throw.
* `std::map<string, PerformanceData>` is an association list.  `Records.insert`
  keeps the keys in increasing order, the order in which the source iterates.
* `clock()` and `gettimeofday` are inputs (`TimeSource`); `CLOCKS_PER_SEC` is a
  parameter.  It is positive on every platform; no statement below depends on what a
  division by a zero `CLOCKS_PER_SEC` would give.
* Names are `String`s.  `perf_name.length()` counts the bytes of the name, so it is
  `String.utf8ByteSize`; on ASCII names it is the number of characters.
* A sequence of calls is a list of `Call`s; `run` applies them one after the other and
  keeps the object each call leaves, whether the call returned or threw.
-/

namespace Stopwatch

/-! ## Data model -/

/-- The time-taking modes of `Stopwatch.h`. -/
inductive StopwatchMode where
  | NONE
  | CPU_TIME
  | REAL_TIME
  deriving DecidableEq, Repr

/-- The exception thrown by the class; it carries the message given at the throw site. -/
structure StopwatchException where
  error : String
  deriving DecidableEq, Repr

/-- The per-name record.  `stops` is an unbounded counter (the source increments
an integer field; wrap-around is not modelled). -/
structure PerformanceData where
  clock_start : ℚ
  total_time : ℚ
  min_time : ℚ
  max_time : ℚ
  last_time : ℚ
  paused : Bool
  stops : ℕ
  deriving DecidableEq, Repr

/-- Modelled from the spec: the default constructor `PerformanceData()` is declared in
`Stopwatch.h`, which is not among the sources.  The specification says that a record
is created "with all fields zeroed/unset". -/
def PerformanceData.new : PerformanceData :=
  { clock_start := 0, total_time := 0, min_time := 0, max_time := 0,
    last_time := 0, paused := false, stops := 0 }

/-- The content of `std::map<string, PerformanceData>`. -/
abbrev Records := List (String × PerformanceData)

/-- The lookup `records_of->find(perf_name)`: the record stored under the name, if any. -/
def Records.find : Records → String → Option PerformanceData
  | [], _ => none
  | (k, v) :: rest, perf_name => if k = perf_name then some v else Records.find rest perf_name

/-- Placing a new entry at its position in key order. -/
def Records.place : Records → String → PerformanceData → Records
  | [], perf_name, v => [(perf_name, v)]
  | (k, d) :: rest, perf_name, v =>
      if perf_name < k then (perf_name, v) :: (k, d) :: rest
      else (k, d) :: Records.place rest perf_name v

/-- The call `records_of->insert(make_pair(perf_name, v))`: it "just works if not
already present", and leaves the map alone otherwise. -/
def Records.insert (m : Records) (perf_name : String) (v : PerformanceData) : Records :=
  if (Records.find m perf_name).isSome then m else Records.place m perf_name v

/-- Assignments through the reference `records_of->find(perf_name)->second`: the record
stored under the name is replaced by its image under `f`. -/
def Records.update : Records → String → (PerformanceData → PerformanceData) → Records
  | [], _, _ => []
  | (k, v) :: rest, perf_name, f =>
      if k = perf_name then (k, f v) :: rest else (k, v) :: Records.update rest perf_name f

/-- The names in iteration order (`it->first` for `it` from `begin()` to `end()`). -/
def Records.names (m : Records) : List String := m.map Prod.fst

end Stopwatch

/-- The registry object: the `active` flag, the selected mode, and the map. -/
structure Stopwatch where
  active : Bool
  mode : Stopwatch.StopwatchMode
  records_of : Stopwatch.Records
  deriving DecidableEq, Repr

namespace Stopwatch

/-- What the platform clocks return during one call: the tick count of `clock()` and
the `timeval` filled in by `gettimeofday`. -/
structure TimeSource where
  clock : ℤ
  tv_sec : ℤ
  tv_usec : ℤ
  deriving DecidableEq, Repr

/-- The value of a `long double` division: a finite quotient, or the non-finite value
that a division by zero gives (an infinity with the sign of the dividend, or NaN for
`0 / 0`). -/
inductive LongDouble where
  | finite (q : ℚ)
  | pos_inf
  | neg_inf
  | nan
  deriving DecidableEq, Repr

/-- The division `a / b` of two finite `long double` values. -/
def LongDouble.div (a b : ℚ) : LongDouble :=
  if b ≠ 0 then LongDouble.finite (a / b)
  else if 0 < a then LongDouble.pos_inf
  else if a < 0 then LongDouble.neg_inf
  else LongDouble.nan

/-- The object after a call, and the value returned or the exception thrown. -/
structure Outcome (α : Type) where
  state : Stopwatch
  result : Except StopwatchException α

/-- The message of the exception thrown by `take_time`. -/
def clock_not_initialized : StopwatchException :=
  ⟨"Clock not initialized to a time taking mode!"⟩

/-- The message of the exception thrown for a name without a record. -/
def performance_not_initialized : StopwatchException :=
  ⟨"Performance not initialized."⟩

/-! ## Operations -/

/-- The constructor `Stopwatch::Stopwatch()`: active, no mode, empty map. -/
def init : Stopwatch :=
  { active := true, mode := StopwatchMode.NONE, records_of := [] }

/-- The method `Stopwatch::set_mode`. -/
def set_mode (sw : Stopwatch) (new_mode : StopwatchMode) : Stopwatch :=
  { sw with mode := new_mode }

/-- The method `Stopwatch::performance_exists`. -/
def performance_exists (sw : Stopwatch) (perf_name : String) : Bool :=
  (Records.find sw.records_of perf_name).isSome

/-- The method `Stopwatch::take_time` (the branch compiled when `WIN32` is not defined). -/
def take_time (sw : Stopwatch) (env : TimeSource) : Except StopwatchException ℚ :=
  if sw.mode = StopwatchMode.CPU_TIME then
    Except.ok (env.clock : ℚ)
  else if sw.mode = StopwatchMode.REAL_TIME then
    let measure : ℚ := (env.tv_usec : ℚ)
    let measure := measure / 1000000
    let measure := measure + (env.tv_sec : ℚ)
    Except.ok measure
  else
    Except.error clock_not_initialized

/-- The method `Stopwatch::start`.  The record is inserted before the time is taken, so the
insertion is kept when `take_time` throws. -/
def start (sw : Stopwatch) (env : TimeSource) (perf_name : String) : Outcome Unit :=
  if !sw.active then ⟨sw, Except.ok ()⟩
  else
    let sw1 : Stopwatch :=
      { sw with records_of := Records.insert sw.records_of perf_name PerformanceData.new }
    match take_time sw1 env with
    | Except.error e => ⟨sw1, Except.error e⟩
    | Except.ok t =>
      ⟨{ sw1 with records_of := Records.update sw1.records_of perf_name (fun perf_info =>
          let perf_info := { perf_info with clock_start := t }
          let perf_info := if !perf_info.paused then { perf_info with last_time := 0 } else perf_info
          { perf_info with paused := false }) },
        Except.ok ()⟩

/-- The method `Stopwatch::stop`. -/
def stop (CLOCKS_PER_SEC : ℚ) (sw : Stopwatch) (env : TimeSource) (perf_name : String) :
    Outcome Unit :=
  if !sw.active then ⟨sw, Except.ok ()⟩
  else
    match take_time sw env with
    | Except.error e => ⟨sw, Except.error e⟩
    | Except.ok clock_end =>
      if !performance_exists sw perf_name then ⟨sw, Except.error performance_not_initialized⟩
      else
        ⟨{ sw with records_of := Records.update sw.records_of perf_name (fun perf_info =>
            let perf_info := { perf_info with stops := perf_info.stops + 1 }
            let lapse : ℚ := clock_end - perf_info.clock_start
            let lapse := if sw.mode = StopwatchMode.CPU_TIME then lapse / CLOCKS_PER_SEC else lapse
            let perf_info := { perf_info with last_time := lapse }
            let perf_info :=
              if lapse ≥ perf_info.max_time then { perf_info with max_time := lapse } else perf_info
            let perf_info :=
              if lapse ≤ perf_info.min_time ∨ perf_info.min_time = (0 : ℚ) then
                { perf_info with min_time := lapse }
              else perf_info
            { perf_info with total_time := perf_info.total_time + lapse }) },
          Except.ok ()⟩

/-- The method `Stopwatch::pause`.  The time is read with `clock()` directly, not with `take_time`. -/
def pause (sw : Stopwatch) (env : TimeSource) (perf_name : String) : Outcome Unit :=
  if !sw.active then ⟨sw, Except.ok ()⟩
  else
    let clock_end : ℚ := (env.clock : ℚ)
    if !performance_exists sw perf_name then ⟨sw, Except.error performance_not_initialized⟩
    else
      ⟨{ sw with records_of := Records.update sw.records_of perf_name (fun perf_info =>
          let lapse : ℚ := clock_end - perf_info.clock_start
          let perf_info := { perf_info with last_time := perf_info.last_time + lapse }
          { perf_info with total_time := perf_info.total_time + lapse }) },
        Except.ok ()⟩

/-- The method `Stopwatch::reset`. -/
def reset (sw : Stopwatch) (perf_name : String) : Outcome Unit :=
  if !sw.active then ⟨sw, Except.ok ()⟩
  else if !performance_exists sw perf_name then ⟨sw, Except.error performance_not_initialized⟩
  else
    ⟨{ sw with records_of := Records.update sw.records_of perf_name (fun perf_info =>
        { perf_info with
          clock_start := 0, total_time := 0, min_time := 0, max_time := 0,
          last_time := 0, paused := false, stops := 0 }) },
      Except.ok ()⟩

/-- The loop of `Stopwatch::reset_all`: `reset(it->first)` for each entry in turn; an
exception leaves the loop. -/
def reset_all_loop : List String → Stopwatch → Outcome Unit
  | [], sw => ⟨sw, Except.ok ()⟩
  | perf_name :: rest, sw =>
      match reset sw perf_name with
      | ⟨sw1, Except.ok _⟩ => reset_all_loop rest sw1
      | ⟨sw1, Except.error e⟩ => ⟨sw1, Except.error e⟩

/-- The method `Stopwatch::reset_all`. -/
def reset_all (sw : Stopwatch) : Outcome Unit :=
  if !sw.active then ⟨sw, Except.ok ()⟩
  else reset_all_loop (Records.names sw.records_of) sw

/-- The method `Stopwatch::turn_on`: the notice is appended to the standard output. -/
def turn_on (sw : Stopwatch) (cout : String) : Stopwatch × String :=
  ({ sw with active := true }, cout ++ "Stopwatch active." ++ "\n")

/-- The method `Stopwatch::turn_off`: the notice is appended to the standard output. -/
def turn_off (sw : Stopwatch) (cout : String) : Stopwatch × String :=
  ({ sw with active := false }, cout ++ "Stopwatch inactive." ++ "\n")

/-- The loop of `report` that builds the bar: `n` times the append of one `=`. -/
def bar_loop : ℕ → String → String
  | 0, bar => bar
  | n + 1, bar => bar_loop n (bar ++ "=")

/-- The method `Stopwatch::report`.  The text is appended to `output`; `fmt` is the conversion
of a `long double` to text that the platform provides.  The result pairs the outcome with the sink
after the call. -/
def report (fmt : LongDouble → String) (sw : Stopwatch) (perf_name : String)
    (output : String) : Outcome Unit × String :=
  if !sw.active then (⟨sw, Except.ok ()⟩, output)
  else
    match Records.find sw.records_of perf_name with
    | none => (⟨sw, Except.error performance_not_initialized⟩, output)
    | some perf_info =>
      let bar := bar_loop perf_name.utf8ByteSize ""
      let output := output ++ "\n"
      let output := output ++ "======================" ++ bar ++ "\n"
      let output := output ++ "Tracking performance: " ++ perf_name ++ "\n"
      let output := output ++ "======================" ++ bar ++ "\n"
      let output := output ++ "  *  Avg. time "
        ++ fmt (LongDouble.div perf_info.total_time (perf_info.stops : ℚ)) ++ " sec" ++ "\n"
      let output := output ++ "  *  Min. time " ++ fmt (LongDouble.finite perf_info.min_time)
        ++ " sec" ++ "\n"
      let output := output ++ "  *  Max. time " ++ fmt (LongDouble.finite perf_info.max_time)
        ++ " sec" ++ "\n"
      let output := output ++ "  *  Tot. time " ++ fmt (LongDouble.finite perf_info.total_time)
        ++ " sec" ++ "\n"
      let stops := toString perf_info.stops
      let output := output ++ "  *  Stops " ++ stops ++ "\n"
      let output := output ++ "\n"
      (⟨sw, Except.ok ()⟩, output)

/-- The loop of `Stopwatch::report_all`: `report(it->first, output)` for each entry in
turn; an exception leaves the loop. -/
def report_all_loop (fmt : LongDouble → String) :
    List String → Stopwatch → String → Outcome Unit × String
  | [], sw, output => (⟨sw, Except.ok ()⟩, output)
  | perf_name :: rest, sw, output =>
      match report fmt sw perf_name output with
      | (⟨sw1, Except.ok _⟩, output1) => report_all_loop fmt rest sw1 output1
      | (⟨sw1, Except.error e⟩, output1) => (⟨sw1, Except.error e⟩, output1)

/-- The method `Stopwatch::report_all`. -/
def report_all (fmt : LongDouble → String) (sw : Stopwatch) (output : String) :
    Outcome Unit × String :=
  if !sw.active then (⟨sw, Except.ok ()⟩, output)
  else report_all_loop fmt (Records.names sw.records_of) sw output

/-- The method `Stopwatch::get_time_so_far`. -/
def get_time_so_far (CLOCKS_PER_SEC : ℚ) (sw : Stopwatch) (env : TimeSource)
    (perf_name : String) : Outcome ℚ :=
  match Records.find sw.records_of perf_name with
  | none => ⟨sw, Except.error performance_not_initialized⟩
  | some perf_info =>
    match take_time sw env with
    | Except.error e => ⟨sw, Except.error e⟩
    | Except.ok t =>
      let lapse : ℚ := t - perf_info.clock_start
      let lapse := if sw.mode = StopwatchMode.CPU_TIME then lapse / CLOCKS_PER_SEC else lapse
      ⟨sw, Except.ok lapse⟩

/-- The method `Stopwatch::get_total_time`. -/
def get_total_time (sw : Stopwatch) (perf_name : String) : Outcome ℚ :=
  match Records.find sw.records_of perf_name with
  | none => ⟨sw, Except.error performance_not_initialized⟩
  | some perf_info => ⟨sw, Except.ok perf_info.total_time⟩

/-- The method `Stopwatch::get_average_time`. -/
def get_average_time (sw : Stopwatch) (perf_name : String) : Outcome LongDouble :=
  match Records.find sw.records_of perf_name with
  | none => ⟨sw, Except.error performance_not_initialized⟩
  | some perf_info =>
    ⟨sw, Except.ok (LongDouble.div perf_info.total_time (perf_info.stops : ℚ))⟩

/-- The method `Stopwatch::get_min_time`. -/
def get_min_time (sw : Stopwatch) (perf_name : String) : Outcome ℚ :=
  match Records.find sw.records_of perf_name with
  | none => ⟨sw, Except.error performance_not_initialized⟩
  | some perf_info => ⟨sw, Except.ok perf_info.min_time⟩

/-- The method `Stopwatch::get_max_time`. -/
def get_max_time (sw : Stopwatch) (perf_name : String) : Outcome ℚ :=
  match Records.find sw.records_of perf_name with
  | none => ⟨sw, Except.error performance_not_initialized⟩
  | some perf_info => ⟨sw, Except.ok perf_info.max_time⟩

/-- The method `Stopwatch::get_last_time`. -/
def get_last_time (sw : Stopwatch) (perf_name : String) : Outcome ℚ :=
  match Records.find sw.records_of perf_name with
  | none => ⟨sw, Except.error performance_not_initialized⟩
  | some perf_info => ⟨sw, Except.ok perf_info.last_time⟩

/-! ## Registries used as concrete inputs -/

/-- An enabled registry in `REAL_TIME` mode whose timer `a` was started at second 1. -/
def example_running : Stopwatch :=
  ⟨true, StopwatchMode.REAL_TIME, [("a", ⟨1, 0, 0, 0, 0, false, 0⟩)]⟩

/-- An enabled registry in `REAL_TIME` mode with no record: `set_mode(REAL_TIME)` on a
new object. -/
def example_fresh : Stopwatch := ⟨true, StopwatchMode.REAL_TIME, []⟩

/-- A disabled registry with no mode selected that holds one record. -/
def example_disabled : Stopwatch :=
  ⟨false, StopwatchMode.NONE, [("a", ⟨1, 5, 2, 3, 3, false, 2⟩)]⟩

/-- An enabled registry in `REAL_TIME` mode whose timer `a` has been stopped twice. -/
def example_stopped : Stopwatch :=
  ⟨true, StopwatchMode.REAL_TIME, [("a", ⟨1, 5, 2, 3, 3, false, 2⟩)]⟩

/-- A disabled registry in `CPU_TIME` mode whose timer `a` was started at tick 1000. -/
def example_cpu_disabled : Stopwatch :=
  ⟨false, StopwatchMode.CPU_TIME, [("a", ⟨1000, 0, 0, 0, 0, false, 0⟩)]⟩

/-- An enabled registry with no mode selected that holds an all-zero record: what a new
registry looks like after `start` of `a` has thrown. -/
def example_no_mode : Stopwatch :=
  ⟨true, StopwatchMode.NONE, [("a", ⟨0, 0, 0, 0, 0, false, 0⟩)]⟩

/-- An enabled registry in `REAL_TIME` mode with two records. -/
def example_two : Stopwatch :=
  ⟨true, StopwatchMode.REAL_TIME,
    [("a", ⟨1, 5, 2, 3, 3, false, 2⟩), ("b", ⟨4, 0, 0, 0, 0, false, 0⟩)]⟩

/-- An enabled registry in `REAL_TIME` mode whose record `a` has `paused` set; no sequence
of calls produces it, it only serves to exercise the branch of `start` for a paused
record. -/
def example_paused : Stopwatch :=
  ⟨true, StopwatchMode.REAL_TIME, [("a", ⟨1, 4, 0, 0, 4, true, 0⟩)]⟩

/-- An enabled registry in `CPU_TIME` mode with no record: `set_mode(CPU_TIME)` on a new
object. -/
def example_cpu_fresh : Stopwatch := ⟨true, StopwatchMode.CPU_TIME, []⟩

/-! ## Sequences of calls -/

/-- One call of a public method, with its arguments, the readings of the clocks during the
call and, for the methods that write, the content of the stream before the call. -/
inductive Call where
  | set_mode (new_mode : StopwatchMode)
  | turn_on (cout : String)
  | turn_off (cout : String)
  | start (env : TimeSource) (perf_name : String)
  | stop (env : TimeSource) (perf_name : String)
  | pause (env : TimeSource) (perf_name : String)
  | reset (perf_name : String)
  | reset_all
  | report (fmt : LongDouble → String) (perf_name : String) (output : String)
  | report_all (fmt : LongDouble → String) (output : String)
  | get_time_so_far (env : TimeSource) (perf_name : String)
  | get_total_time (perf_name : String)
  | get_average_time (perf_name : String)
  | get_min_time (perf_name : String)
  | get_max_time (perf_name : String)
  | get_last_time (perf_name : String)

/-- The object after one call, whether the call returned or threw. -/
def step (CLOCKS_PER_SEC : ℚ) (sw : Stopwatch) : Call → Stopwatch
  | Call.set_mode new_mode => set_mode sw new_mode
  | Call.turn_on cout => (turn_on sw cout).1
  | Call.turn_off cout => (turn_off sw cout).1
  | Call.start env perf_name => (start sw env perf_name).state
  | Call.stop env perf_name => (stop CLOCKS_PER_SEC sw env perf_name).state
  | Call.pause env perf_name => (pause sw env perf_name).state
  | Call.reset perf_name => (reset sw perf_name).state
  | Call.reset_all => (reset_all sw).state
  | Call.report fmt perf_name output => (report fmt sw perf_name output).1.state
  | Call.report_all fmt output => (report_all fmt sw output).1.state
  | Call.get_time_so_far env perf_name =>
      (get_time_so_far CLOCKS_PER_SEC sw env perf_name).state
  | Call.get_total_time perf_name => (get_total_time sw perf_name).state
  | Call.get_average_time perf_name => (get_average_time sw perf_name).state
  | Call.get_min_time perf_name => (get_min_time sw perf_name).state
  | Call.get_max_time perf_name => (get_max_time sw perf_name).state
  | Call.get_last_time perf_name => (get_last_time sw perf_name).state

/-- The object after a sequence of calls made one after the other. -/
def run (CLOCKS_PER_SEC : ℚ) (sw : Stopwatch) (calls : List Call) : Stopwatch :=
  calls.foldl (step CLOCKS_PER_SEC) sw

/-- Whether a call is `reset` of the given name or `reset_all`. -/
def Call.resets (perf_name : String) : Call → Bool
  | Call.reset other => other = perf_name
  | Call.reset_all => true
  | _ => false

/-- Consecutive `start`/`stop` cycles on one name, one pair of clock readings per cycle;
an exception ends the sequence. -/
def cycles (CLOCKS_PER_SEC : ℚ) (perf_name : String) :
    List (TimeSource × TimeSource) → Stopwatch → Outcome Unit
  | [], sw => ⟨sw, Except.ok ()⟩
  | (env_start, env_stop) :: rest, sw =>
      match start sw env_start perf_name with
      | ⟨sw1, Except.error e⟩ => ⟨sw1, Except.error e⟩
      | ⟨sw1, Except.ok _⟩ =>
        match stop CLOCKS_PER_SEC sw1 env_stop perf_name with
        | ⟨sw2, Except.error e⟩ => ⟨sw2, Except.error e⟩
        | ⟨sw2, Except.ok _⟩ => cycles CLOCKS_PER_SEC perf_name rest sw2

/-! ## Facts about the map -/

theorem Records.find_update_same (m : Records) (perf_name : String)
    (f : PerformanceData → PerformanceData) :
    Records.find (Records.update m perf_name f) perf_name
      = (Records.find m perf_name).map f := by
  induction m with
  | nil => simp [Records.update, Records.find]
  | cons p rest ih =>
    obtain ⟨k, v⟩ := p
    by_cases hk : k = perf_name
    · simp [Records.update, Records.find, hk]
    · simp [Records.update, Records.find, hk, ih]

theorem Records.find_update_ne (m : Records) (perf_name other : String)
    (f : PerformanceData → PerformanceData) (hne : perf_name ≠ other) :
    Records.find (Records.update m perf_name f) other = Records.find m other := by
  induction m with
  | nil => simp [Records.update, Records.find]
  | cons p rest ih =>
    obtain ⟨k, v⟩ := p
    by_cases hk : k = perf_name
    · subst hk
      simp [Records.update, Records.find, hne]
    · by_cases ho : k = other
      · subst ho
        simp [Records.update, Records.find, hk]
      · simp [Records.update, Records.find, hk, ho, ih]

theorem Records.names_update (m : Records) (perf_name : String)
    (f : PerformanceData → PerformanceData) :
    Records.names (Records.update m perf_name f) = Records.names m := by
  induction m with
  | nil => simp [Records.update, Records.names]
  | cons p rest ih =>
    obtain ⟨k, v⟩ := p
    by_cases hk : k = perf_name
    · simp [Records.update, Records.names, hk]
    · simp only [Records.names] at ih
      simp [Records.update, Records.names, hk, ih]

theorem Records.find_place (m : Records) (perf_name : String) (v : PerformanceData)
    (habsent : Records.find m perf_name = none) :
    Records.find (Records.place m perf_name v) perf_name = some v := by
  induction m with
  | nil => simp [Records.place, Records.find]
  | cons p rest ih =>
    obtain ⟨k, d⟩ := p
    by_cases hk : k = perf_name
    · simp [Records.find, hk] at habsent
    · simp only [Records.find, hk, if_false] at habsent
      by_cases hlt : perf_name < k
      · simp [Records.place, Records.find, hlt]
      · simp [Records.place, Records.find, hlt, hk, ih habsent]

theorem Records.find_insert_absent (m : Records) (perf_name : String) (v : PerformanceData)
    (habsent : Records.find m perf_name = none) :
    Records.find (Records.insert m perf_name v) perf_name = some v := by
  simp [Records.insert, habsent, Records.find_place]

theorem Records.insert_present (m : Records) (perf_name : String) (v r : PerformanceData)
    (hpresent : Records.find m perf_name = some r) :
    Records.insert m perf_name v = m := by
  simp [Records.insert, hpresent]

theorem Records.update_update_same (m : Records) (perf_name : String)
    (f g : PerformanceData → PerformanceData) :
    Records.update (Records.update m perf_name f) perf_name g
      = Records.update m perf_name (fun v => g (f v)) := by
  induction m with
  | nil => simp [Records.update]
  | cons p rest ih =>
    obtain ⟨k, v⟩ := p
    by_cases hk : k = perf_name
    · simp [Records.update, hk]
    · simp [Records.update, hk, ih]

theorem Records.update_absent (m : Records) (perf_name : String)
    (f : PerformanceData → PerformanceData)
    (habsent : Records.find m perf_name = none) :
    Records.update m perf_name f = m := by
  induction m with
  | nil => simp [Records.update]
  | cons p rest ih =>
    obtain ⟨k, v⟩ := p
    by_cases hk : k = perf_name
    · simp [Records.find, hk] at habsent
    · simp only [Records.find, hk, if_false] at habsent
      simp [Records.update, hk, ih habsent]

theorem Records.update_update_comm (m : Records) (a b : String)
    (f : PerformanceData → PerformanceData) :
    Records.update (Records.update m a f) b f = Records.update (Records.update m b f) a f := by
  induction m with
  | nil => simp [Records.update]
  | cons p rest ih =>
    obtain ⟨k, v⟩ := p
    by_cases ha : k = a
    · subst ha
      by_cases hb : k = b
      · subst hb
        simp [Records.update]
      · simp [Records.update, hb]
    · by_cases hb : k = b
      · subst hb
        simp [Records.update, ha]
      · simp [Records.update, ha, hb, ih]

theorem Records.mem_names_iff (m : Records) (perf_name : String) :
    perf_name ∈ Records.names m ↔ (Records.find m perf_name).isSome = true := by
  induction m with
  | nil => simp [Records.names, Records.find]
  | cons p rest ih =>
    obtain ⟨k, v⟩ := p
    simp only [Records.names] at ih
    by_cases hk : k = perf_name
    · simp [Records.names, Records.find, hk]
    · have hk2 : ¬ perf_name = k := fun h => hk h.symm
      simp [Records.names, Records.find, hk, hk2, ih]

/-! ## Facts about the operations -/

/-- A selected mode makes `take_time` return a sample. -/
theorem take_time_of_mode (sw : Stopwatch) (env : TimeSource)
    (hmode : sw.mode ≠ StopwatchMode.NONE) :
    ∃ sample : ℚ, take_time sw env = Except.ok sample := by
  cases hm : sw.mode with
  | NONE => exact absurd hm hmode
  | CPU_TIME => exact ⟨(env.clock : ℚ), by simp [take_time, hm]⟩
  | REAL_TIME =>
    exact ⟨(env.tv_usec : ℚ) / 1000000 + (env.tv_sec : ℚ), by simp [take_time, hm]⟩

/-- Only the mode decides what `take_time` does. -/
theorem take_time_congr (sw sw1 : Stopwatch) (env : TimeSource) (hmode : sw1.mode = sw.mode) :
    take_time sw1 env = take_time sw env := by
  simp [take_time, hmode]

theorem start_result (sw : Stopwatch) (env : TimeSource) (perf_name : String) (sample : ℚ)
    (hs : take_time sw env = Except.ok sample) :
    (start sw env perf_name).result = Except.ok () := by
  have ht : ∀ (a : Bool) (m : Records), take_time ⟨a, sw.mode, m⟩ env = Except.ok sample :=
    fun a m => (take_time_congr sw ⟨a, sw.mode, m⟩ env rfl).trans hs
  cases hactive : sw.active <;> simp [start, hactive, ht]

theorem start_active (sw : Stopwatch) (env : TimeSource) (perf_name : String) :
    (start sw env perf_name).state.active = sw.active := by
  simp only [start]
  split
  · rfl
  · split <;> rfl

theorem start_mode (sw : Stopwatch) (env : TimeSource) (perf_name : String) :
    (start sw env perf_name).state.mode = sw.mode := by
  simp only [start]
  split
  · rfl
  · split <;> rfl

/-- The record that `start` leaves under a name that had none. -/
theorem start_find_absent (sw : Stopwatch) (env : TimeSource) (perf_name : String) (sample : ℚ)
    (hactive : sw.active = true) (hs : take_time sw env = Except.ok sample)
    (habsent : Records.find sw.records_of perf_name = none) :
    Records.find (start sw env perf_name).state.records_of perf_name
      = some { clock_start := sample, total_time := 0, min_time := 0, max_time := 0,
               last_time := 0, paused := false, stops := 0 } := by
  have ht : ∀ (a : Bool) (m : Records), take_time ⟨a, sw.mode, m⟩ env = Except.ok sample :=
    fun a m => (take_time_congr sw ⟨a, sw.mode, m⟩ env rfl).trans hs
  simp only [start, hactive, ht, Bool.not_true, Bool.false_eq_true, if_false]
  rw [Records.find_update_same, Records.find_insert_absent _ _ _ habsent]
  simp [PerformanceData.new]

/-- The record that `start` leaves under a name that had one. -/
theorem start_find_present (sw : Stopwatch) (env : TimeSource) (perf_name : String)
    (r : PerformanceData) (sample : ℚ)
    (hactive : sw.active = true) (hs : take_time sw env = Except.ok sample)
    (hrec : Records.find sw.records_of perf_name = some r) :
    Records.find (start sw env perf_name).state.records_of perf_name
      = some { clock_start := sample, total_time := r.total_time, min_time := r.min_time,
               max_time := r.max_time, last_time := if r.paused then r.last_time else 0,
               paused := false, stops := r.stops } := by
  have ht : ∀ (a : Bool) (m : Records), take_time ⟨a, sw.mode, m⟩ env = Except.ok sample :=
    fun a m => (take_time_congr sw ⟨a, sw.mode, m⟩ env rfl).trans hs
  simp only [start, hactive, ht, Bool.not_true, Bool.false_eq_true, if_false]
  rw [Records.find_update_same, Records.insert_present _ _ _ r hrec, hrec]
  cases hp : r.paused <;> simp [hp]

theorem stop_active (CLOCKS_PER_SEC : ℚ) (sw : Stopwatch) (env : TimeSource)
    (perf_name : String) :
    (stop CLOCKS_PER_SEC sw env perf_name).state.active = sw.active := by
  unfold stop
  split
  · rfl
  · split
    · rfl
    · split <;> rfl

theorem stop_mode (CLOCKS_PER_SEC : ℚ) (sw : Stopwatch) (env : TimeSource)
    (perf_name : String) :
    (stop CLOCKS_PER_SEC sw env perf_name).state.mode = sw.mode := by
  unfold stop
  split
  · rfl
  · split
    · rfl
    · split <;> rfl

/-- The record that `stop` leaves under the name, for a sample `take_time` returned. -/
theorem stop_find (CLOCKS_PER_SEC : ℚ) (sw : Stopwatch) (env : TimeSource)
    (perf_name : String) (r : PerformanceData) (sample lapse : ℚ)
    (hactive : sw.active = true) (hs : take_time sw env = Except.ok sample)
    (hrec : Records.find sw.records_of perf_name = some r)
    (hlapse : lapse = (if sw.mode = StopwatchMode.CPU_TIME
                then (sample - r.clock_start) / CLOCKS_PER_SEC else sample - r.clock_start)) :
    Records.find (stop CLOCKS_PER_SEC sw env perf_name).state.records_of perf_name
      = some { clock_start := r.clock_start,
               total_time := r.total_time + lapse,
               min_time := if lapse ≤ r.min_time ∨ r.min_time = 0 then lapse else r.min_time,
               max_time := max r.max_time lapse,
               last_time := lapse,
               paused := r.paused,
               stops := r.stops + 1 } := by
  simp only [stop, hactive, hs, performance_exists, hrec, Option.isSome, Bool.not_true,
    Bool.false_eq_true, if_false]
  rw [Records.find_update_same, hrec]
  simp only [Option.map_some', ge_iff_le, ← hlapse]
  by_cases hmax : r.max_time ≤ lapse
  · by_cases hmin : lapse ≤ r.min_time ∨ r.min_time = 0
    · simp [hmax, hmin]
    · simp [hmax, hmin]
  · have hlt := lt_of_not_ge hmax
    by_cases hmin : lapse ≤ r.min_time ∨ r.min_time = 0
    · simp [hmax, hmin, max_eq_left hlt.le]
    · simp [hmax, hmin, max_eq_left hlt.le]

theorem stop_result (CLOCKS_PER_SEC : ℚ) (sw : Stopwatch) (env : TimeSource)
    (perf_name : String) (r : PerformanceData) (sample : ℚ)
    (hactive : sw.active = true) (hs : take_time sw env = Except.ok sample)
    (hrec : Records.find sw.records_of perf_name = some r) :
    (stop CLOCKS_PER_SEC sw env perf_name).result = Except.ok () := by
  simp [stop, hactive, hs, performance_exists, hrec]

theorem get_total_time_of_find (sw : Stopwatch) (perf_name : String) (r : PerformanceData)
    (hrec : Records.find sw.records_of perf_name = some r) :
    get_total_time sw perf_name = ⟨sw, Except.ok r.total_time⟩ := by
  simp [get_total_time, hrec]

theorem get_min_time_of_find (sw : Stopwatch) (perf_name : String) (r : PerformanceData)
    (hrec : Records.find sw.records_of perf_name = some r) :
    get_min_time sw perf_name = ⟨sw, Except.ok r.min_time⟩ := by
  simp [get_min_time, hrec]

theorem get_max_time_of_find (sw : Stopwatch) (perf_name : String) (r : PerformanceData)
    (hrec : Records.find sw.records_of perf_name = some r) :
    get_max_time sw perf_name = ⟨sw, Except.ok r.max_time⟩ := by
  simp [get_max_time, hrec]

theorem get_last_time_of_find (sw : Stopwatch) (perf_name : String) (r : PerformanceData)
    (hrec : Records.find sw.records_of perf_name = some r) :
    get_last_time sw perf_name = ⟨sw, Except.ok r.last_time⟩ := by
  simp [get_last_time, hrec]

theorem get_average_time_of_find (sw : Stopwatch) (perf_name : String) (r : PerformanceData)
    (hrec : Records.find sw.records_of perf_name = some r) :
    get_average_time sw perf_name
      = ⟨sw, Except.ok (LongDouble.div r.total_time (r.stops : ℚ))⟩ := by
  simp [get_average_time, hrec]

/-- The object that `reset` leaves, whether it succeeds, fails or does nothing. -/
theorem reset_state (sw : Stopwatch) (perf_name : String) :
    (reset sw perf_name).state
      = ⟨sw.active, sw.mode,
          if sw.active = true then
            Records.update sw.records_of perf_name
              (fun _ => { clock_start := 0, total_time := 0, min_time := 0, max_time := 0,
                          last_time := 0, paused := false, stops := 0 })
          else sw.records_of⟩ := by
  obtain ⟨active, mode, records_of⟩ := sw
  cases active with
  | false => simp [reset]
  | true =>
    cases hrec : Records.find records_of perf_name with
    | none =>
      simp [reset, performance_exists, hrec, Records.update_absent _ _ _ hrec]
    | some r => simp [reset, performance_exists, hrec]

theorem reset_result (sw : Stopwatch) (perf_name : String)
    (hpresent : (Records.find sw.records_of perf_name).isSome = true) :
    (reset sw perf_name).result = Except.ok () := by
  cases hactive : sw.active <;> simp [reset, hactive, performance_exists, hpresent]

theorem reset_preserves_presence (sw : Stopwatch) (perf_name other : String) :
    (Records.find (reset sw perf_name).state.records_of other).isSome
      = (Records.find sw.records_of other).isSome := by
  rw [reset_state]
  cases hactive : sw.active with
  | false => simp
  | true =>
    simp only [if_true]
    by_cases hne : perf_name = other
    · subst hne
      rw [Records.find_update_same]
      cases Records.find sw.records_of perf_name <;> simp
    · rw [Records.find_update_ne _ _ _ _ hne]

theorem reset_preserves_names (sw : Stopwatch) (perf_name : String) :
    Records.names (reset sw perf_name).state.records_of = Records.names sw.records_of := by
  rw [reset_state]
  cases hactive : sw.active with
  | false => simp
  | true => simp [Records.names_update]

theorem reset_comm (sw : Stopwatch) (a b : String) :
    (reset (reset sw a).state b).state = (reset (reset sw b).state a).state := by
  rw [reset_state (reset sw a).state, reset_state (reset sw b).state, reset_state sw a,
    reset_state sw b]
  cases hactive : sw.active with
  | false => simp
  | true => simp [Records.update_update_comm]

/-- The loop of `reset_all` over names that all have a record never throws, and its final
object is the one obtained by applying `reset` to each name in turn. -/
theorem reset_all_loop_eq : ∀ (names : List String) (sw : Stopwatch),
    (∀ n ∈ names, (Records.find sw.records_of n).isSome = true) →
    reset_all_loop names sw
      = ⟨names.foldl (fun s n => (reset s n).state) sw, Except.ok ()⟩
  | [], sw, _ => by simp [reset_all_loop]
  | k :: rest, sw, hall => by
    have hk : reset sw k = ⟨(reset sw k).state, Except.ok ()⟩ := by
      have := reset_result sw k (hall k (List.mem_cons_self k rest))
      rw [← this]
    have hrest : ∀ n ∈ rest, (Records.find (reset sw k).state.records_of n).isSome = true := by
      intro n hn
      rw [reset_preserves_presence]
      exact hall n (List.mem_cons_of_mem k hn)
    have ih := reset_all_loop_eq rest (reset sw k).state hrest
    rw [reset_all_loop, hk]
    simpa using ih

theorem reset_fold_names : ∀ (names : List String) (sw : Stopwatch),
    Records.names (names.foldl (fun s n => (reset s n).state) sw).records_of
      = Records.names sw.records_of
  | [], _ => rfl
  | k :: rest, sw => by
    rw [List.foldl_cons, reset_fold_names rest (reset sw k).state, reset_preserves_names]

theorem reset_fold_inactive : ∀ (names : List String) (sw : Stopwatch),
    sw.active = false → names.foldl (fun s n => (reset s n).state) sw = sw
  | [], _, _ => rfl
  | k :: rest, sw, hoff => by
    have hk : (reset sw k).state = sw := by simp [reset, hoff]
    rw [List.foldl_cons, hk, reset_fold_inactive rest sw hoff]

theorem reset_keeps_zero (sw : Stopwatch) (perf_name other : String)
    (hzero : Records.find sw.records_of other
      = some { clock_start := 0, total_time := 0, min_time := 0, max_time := 0,
               last_time := 0, paused := false, stops := 0 }) :
    Records.find (reset sw perf_name).state.records_of other
      = some { clock_start := 0, total_time := 0, min_time := 0, max_time := 0,
               last_time := 0, paused := false, stops := 0 } := by
  rw [reset_state]
  cases hactive : sw.active with
  | false => simpa using hzero
  | true =>
    simp only [if_true]
    by_cases hne : perf_name = other
    · subst hne
      rw [Records.find_update_same, hzero]
      rfl
    · rw [Records.find_update_ne _ _ _ _ hne, hzero]

theorem reset_fold_keeps_zero : ∀ (names : List String) (sw : Stopwatch) (other : String),
    Records.find sw.records_of other
      = some { clock_start := 0, total_time := 0, min_time := 0, max_time := 0,
               last_time := 0, paused := false, stops := 0 } →
    Records.find (names.foldl (fun s n => (reset s n).state) sw).records_of other
      = some { clock_start := 0, total_time := 0, min_time := 0, max_time := 0,
               last_time := 0, paused := false, stops := 0 }
  | [], _, _, hzero => hzero
  | k :: rest, sw, other, hzero => by
    rw [List.foldl_cons]
    exact reset_fold_keeps_zero rest (reset sw k).state other (reset_keeps_zero sw k other hzero)

theorem reset_fold_zeroes : ∀ (names : List String) (sw : Stopwatch) (other : String),
    sw.active = true → other ∈ names →
    (Records.find sw.records_of other).isSome = true →
    Records.find (names.foldl (fun s n => (reset s n).state) sw).records_of other
      = some { clock_start := 0, total_time := 0, min_time := 0, max_time := 0,
               last_time := 0, paused := false, stops := 0 }
  | [], _, _, _, hmem, _ => by cases hmem
  | k :: rest, sw, other, hactive, hmem, hpresent => by
    rw [List.foldl_cons]
    by_cases hk : k = other
    · subst hk
      apply reset_fold_keeps_zero
      obtain ⟨r, hr⟩ := Option.isSome_iff_exists.mp hpresent
      rw [reset_state]
      simp [hactive, Records.find_update_same, hr]
    · have hmem2 : other ∈ rest := by
        rcases List.mem_cons.mp hmem with h | h
        · exact absurd h.symm hk
        · exact h
      apply reset_fold_zeroes rest (reset sw k).state other _ hmem2
      · rw [reset_preserves_presence]; exact hpresent
      · rw [reset_state]; exact hactive

theorem pause_result (sw : Stopwatch) (env : TimeSource) (perf_name : String)
    (r : PerformanceData) (hrec : Records.find sw.records_of perf_name = some r) :
    (pause sw env perf_name).result = Except.ok () := by
  cases hactive : sw.active <;> simp [pause, hactive, performance_exists, hrec]

/-- The record that `pause` leaves under the name. -/
theorem pause_find (sw : Stopwatch) (env : TimeSource) (perf_name : String)
    (r : PerformanceData) (hactive : sw.active = true)
    (hrec : Records.find sw.records_of perf_name = some r) :
    Records.find (pause sw env perf_name).state.records_of perf_name
      = some { clock_start := r.clock_start,
               total_time := r.total_time + ((env.clock : ℚ) - r.clock_start),
               min_time := r.min_time,
               max_time := r.max_time,
               last_time := r.last_time + ((env.clock : ℚ) - r.clock_start),
               paused := r.paused,
               stops := r.stops } := by
  simp only [pause, hactive, performance_exists, hrec, Option.isSome, Bool.not_true,
    Bool.false_eq_true, if_false]
  rw [Records.find_update_same, hrec]
  rfl

theorem pause_active (sw : Stopwatch) (env : TimeSource) (perf_name : String) :
    (pause sw env perf_name).state.active = sw.active := by
  simp only [pause]
  split
  · rfl
  · split <;> rfl

theorem pause_mode (sw : Stopwatch) (env : TimeSource) (perf_name : String) :
    (pause sw env perf_name).state.mode = sw.mode := by
  simp only [pause]
  split
  · rfl
  · split <;> rfl

theorem Records.update_id (m : Records) (perf_name : String) :
    Records.update m perf_name (fun v => v) = m := by
  induction m with
  | nil => simp [Records.update]
  | cons p rest ih =>
    obtain ⟨k, v⟩ := p
    by_cases hk : k = perf_name
    · simp [Records.update, hk]
    · simp [Records.update, hk, ih]

theorem Records.forall_update (P : PerformanceData → Prop) (m : Records) (perf_name : String)
    (f : PerformanceData → PerformanceData) (hf : ∀ v, P v → P (f v))
    (hm : ∀ p ∈ m, P p.2) :
    ∀ p ∈ Records.update m perf_name f, P p.2 := by
  induction m with
  | nil => simp [Records.update]
  | cons q rest ih =>
    obtain ⟨k, v⟩ := q
    have hv : P v := hm (k, v) (List.mem_cons_self _ _)
    have hrest : ∀ p ∈ rest, P p.2 := fun p hp => hm p (List.mem_cons_of_mem _ hp)
    intro p hp
    by_cases hk : k = perf_name
    · simp only [Records.update, hk, if_true, List.mem_cons] at hp
      rcases hp with hp | hp
      · rw [hp]; exact hf v hv
      · exact hrest p hp
    · simp only [Records.update, hk, if_false, List.mem_cons] at hp
      rcases hp with hp | hp
      · rw [hp]; exact hv
      · exact ih hrest p hp

theorem Records.forall_place (P : PerformanceData → Prop) (m : Records) (perf_name : String)
    (v : PerformanceData) (hv : P v) (hm : ∀ p ∈ m, P p.2) :
    ∀ p ∈ Records.place m perf_name v, P p.2 := by
  induction m with
  | nil =>
    intro p hp
    simp only [Records.place, List.mem_singleton] at hp
    rw [hp]; exact hv
  | cons q rest ih =>
    obtain ⟨k, d⟩ := q
    have hd : P d := hm (k, d) (List.mem_cons_self _ _)
    have hrest : ∀ p ∈ rest, P p.2 := fun p hp => hm p (List.mem_cons_of_mem _ hp)
    intro p hp
    by_cases hlt : perf_name < k
    · simp only [Records.place, hlt, if_true, List.mem_cons] at hp
      rcases hp with hp | hp | hp
      · rw [hp]; exact hv
      · rw [hp]; exact hd
      · exact hrest p hp
    · simp only [Records.place, hlt, if_false, List.mem_cons] at hp
      rcases hp with hp | hp
      · rw [hp]; exact hd
      · exact ih hrest p hp

theorem Records.forall_insert (P : PerformanceData → Prop) (m : Records) (perf_name : String)
    (v : PerformanceData) (hv : P v) (hm : ∀ p ∈ m, P p.2) :
    ∀ p ∈ Records.insert m perf_name v, P p.2 := by
  unfold Records.insert
  split
  · exact hm
  · exact Records.forall_place P m perf_name v hv hm

theorem Records.find_place_ne (m : Records) (perf_name other : String) (v : PerformanceData)
    (hne : perf_name ≠ other) :
    Records.find (Records.place m perf_name v) other = Records.find m other := by
  induction m with
  | nil => simp [Records.place, Records.find, hne]
  | cons q rest ih =>
    obtain ⟨k, d⟩ := q
    by_cases hlt : perf_name < k
    · simp [Records.place, Records.find, hlt, hne]
    · by_cases hk : k = other
      · subst hk
        simp [Records.place, Records.find, hlt]
      · simp [Records.place, Records.find, hlt, hk, ih]

theorem Records.find_insert_ne (m : Records) (perf_name other : String) (v : PerformanceData)
    (hne : perf_name ≠ other) :
    Records.find (Records.insert m perf_name v) other = Records.find m other := by
  unfold Records.insert
  split
  · rfl
  · exact Records.find_place_ne m perf_name other v hne

theorem Records.find_insert_same (m : Records) (perf_name : String) (v : PerformanceData) :
    Records.find (Records.insert m perf_name v) perf_name
      = some ((Records.find m perf_name).getD v) := by
  cases hrec : Records.find m perf_name with
  | none => simp [Records.find_insert_absent m perf_name v hrec]
  | some r => simp [Records.insert_present m perf_name v r hrec, hrec]

theorem Records.mem_of_find (m : Records) (perf_name : String) (r : PerformanceData)
    (hrec : Records.find m perf_name = some r) : (perf_name, r) ∈ m := by
  induction m with
  | nil => simp [Records.find] at hrec
  | cons q rest ih =>
    obtain ⟨k, d⟩ := q
    by_cases hk : k = perf_name
    · simp only [Records.find, hk, if_true, Option.some.injEq] at hrec
      simp [hk, hrec]
    · simp only [Records.find, hk, if_false] at hrec
      exact List.mem_cons_of_mem _ (ih hrec)

/-- What `start` does to the map: nothing, or the insertion of a new record followed by an
update of the record under the name that keeps every field but `clock_start`, `last_time`
and `paused`, and leaves `paused` false. -/
theorem start_shape (sw : Stopwatch) (env : TimeSource) (perf_name : String) :
    ∃ (m : Records) (f : PerformanceData → PerformanceData),
      (m = sw.records_of ∨ m = Records.insert sw.records_of perf_name PerformanceData.new) ∧
      (start sw env perf_name).state.records_of = Records.update m perf_name f ∧
      ∀ v, (f v).total_time = v.total_time ∧ (f v).min_time = v.min_time ∧
        (f v).max_time = v.max_time ∧ (f v).stops = v.stops ∧
        (v.paused = false → (f v).paused = false) := by
  cases hactive : sw.active with
  | false =>
    refine ⟨sw.records_of, fun v => v, Or.inl rfl, ?_, fun v => ⟨rfl, rfl, rfl, rfl, id⟩⟩
    simp [start, hactive, Records.update_id]
  | true =>
    cases ht : take_time sw env with
    | error e =>
      have ht2 : ∀ (a : Bool) (m : Records), take_time ⟨a, sw.mode, m⟩ env = Except.error e :=
        fun a m => (take_time_congr sw ⟨a, sw.mode, m⟩ env rfl).trans ht
      refine ⟨_, fun v => v, Or.inr rfl, ?_, fun v => ⟨rfl, rfl, rfl, rfl, id⟩⟩
      simp [start, hactive, ht2, Records.update_id]
    | ok t =>
      have ht2 : ∀ (a : Bool) (m : Records), take_time ⟨a, sw.mode, m⟩ env = Except.ok t :=
        fun a m => (take_time_congr sw ⟨a, sw.mode, m⟩ env rfl).trans ht
      refine ⟨Records.insert sw.records_of perf_name PerformanceData.new, ?f, Or.inr rfl,
        ?h1, ?h2⟩
      case h1 =>
        simp only [start, hactive, ht2, Bool.not_true, Bool.false_eq_true, if_false]
        exact rfl
      case h2 =>
        intro v
        cases hp : v.paused <;> simp [hp]

/-- What `stop` does to the map: an update of the record under the name that keeps
`clock_start` and `paused`, does not lower `max_time`, and keeps `min_time` at most
`max_time`. -/
theorem stop_shape (CLOCKS_PER_SEC : ℚ) (sw : Stopwatch) (env : TimeSource)
    (perf_name : String) :
    ∃ f : PerformanceData → PerformanceData,
      (stop CLOCKS_PER_SEC sw env perf_name).state.records_of
        = Records.update sw.records_of perf_name f ∧
      ∀ v, (f v).paused = v.paused ∧ v.max_time ≤ (f v).max_time ∧
        (v.min_time ≤ v.max_time → (f v).min_time ≤ (f v).max_time) := by
  have hid : ∀ v : PerformanceData, v.paused = v.paused ∧ v.max_time ≤ v.max_time ∧
      (v.min_time ≤ v.max_time → v.min_time ≤ v.max_time) := fun v => ⟨rfl, le_refl _, id⟩
  cases hactive : sw.active with
  | false =>
    refine ⟨fun v => v, ?_, hid⟩
    simp [stop, hactive, Records.update_id]
  | true =>
    cases ht : take_time sw env with
    | error e =>
      refine ⟨fun v => v, ?_, hid⟩
      simp [stop, hactive, ht, Records.update_id]
    | ok t =>
      cases hrec : Records.find sw.records_of perf_name with
      | none =>
        refine ⟨fun v => v, ?_, hid⟩
        simp [stop, hactive, ht, performance_exists, hrec, Records.update_id]
      | some r =>
        refine ⟨?f, ?h1, ?h2⟩
        case h1 =>
          simp only [stop, hactive, ht, performance_exists, hrec, Option.isSome, Bool.not_true,
            Bool.false_eq_true, if_false]
          exact rfl
        case h2 =>
          intro v
          simp only [ge_iff_le]
          generalize (if sw.mode = StopwatchMode.CPU_TIME
            then (t - v.clock_start) / CLOCKS_PER_SEC else t - v.clock_start) = lapse
          by_cases hmax : v.max_time ≤ lapse
          · by_cases hmin : lapse ≤ v.min_time ∨ v.min_time = 0
            · simp [hmax, hmin]
            · simp only [hmax, hmin, if_true, if_false]
              refine ⟨trivial, trivial, fun h => le_trans h hmax⟩ 
          · have hlt := (lt_of_not_ge hmax).le
            by_cases hmin : lapse ≤ v.min_time ∨ v.min_time = 0
            · simp [hmax, hmin, hlt]
            · simp [hmax, hmin]

/-- What `pause` does to the map: an update of the record under the name that keeps every
field but `last_time` and `total_time`. -/
theorem pause_shape (sw : Stopwatch) (env : TimeSource) (perf_name : String) :
    ∃ f : PerformanceData → PerformanceData,
      (pause sw env perf_name).state.records_of = Records.update sw.records_of perf_name f ∧
      ∀ v, (f v).paused = v.paused ∧ (f v).max_time = v.max_time ∧
        (f v).min_time = v.min_time ∧ (f v).stops = v.stops ∧
        (f v).clock_start = v.clock_start := by
  cases hactive : sw.active with
  | false =>
    refine ⟨fun v => v, ?_, fun v => ⟨rfl, rfl, rfl, rfl, rfl⟩⟩
    simp [pause, hactive, Records.update_id]
  | true =>
    cases hrec : Records.find sw.records_of perf_name with
    | none =>
      refine ⟨fun v => v, ?_, fun v => ⟨rfl, rfl, rfl, rfl, rfl⟩⟩
      simp [pause, hactive, performance_exists, hrec, Records.update_id]
    | some r =>
      refine ⟨?f, ?h1, ?h2⟩
      case h1 =>
        simp only [pause, hactive, performance_exists, hrec, Option.isSome, Bool.not_true,
          Bool.false_eq_true, if_false]
        exact rfl
      case h2 => exact fun v => ⟨rfl, rfl, rfl, rfl, rfl⟩

/-- What `reset` does to the map: an update of the record under the name that either
changes nothing or sets every field to zero. -/
theorem reset_shape (sw : Stopwatch) (perf_name : String) :
    ∃ f : PerformanceData → PerformanceData,
      (reset sw perf_name).state.records_of = Records.update sw.records_of perf_name f ∧
      ((∀ v, f v = v) ∨
       (∀ v, f v = { clock_start := 0, total_time := 0, min_time := 0, max_time := 0,
                     last_time := 0, paused := false, stops := 0 })) := by
  rw [reset_state]
  cases hactive : sw.active with
  | false => exact ⟨fun v => v, by simp [Records.update_id], Or.inl fun _ => rfl⟩
  | true => exact ⟨_, by simp, Or.inr fun _ => rfl⟩
theorem report_state (fmt : LongDouble → String) (sw : Stopwatch) (perf_name : String)
    (output : String) : (report fmt sw perf_name output).1.state = sw := by
  simp only [report]
  split
  · rfl
  · split <;> rfl

theorem report_all_loop_state (fmt : LongDouble → String) :
    ∀ (names : List String) (sw : Stopwatch) (output : String),
      (report_all_loop fmt names sw output).1.state = sw
  | [], _, _ => rfl
  | k :: rest, sw, output => by
    have hk := report_state fmt sw k output
    rw [report_all_loop]
    split
    · rename_i sw1 u output1 heq
      have h1 : sw1 = sw := by rw [← hk, heq]
      rw [report_all_loop_state fmt rest sw1 output1, h1]
    · rename_i sw1 e output1 heq
      show sw1 = sw
      rw [← hk, heq]

theorem report_all_state (fmt : LongDouble → String) (sw : Stopwatch) (output : String) :
    (report_all fmt sw output).1.state = sw := by
  simp only [report_all]
  split
  · rfl
  · exact report_all_loop_state fmt _ sw output

theorem get_time_so_far_state (CLOCKS_PER_SEC : ℚ) (sw : Stopwatch) (env : TimeSource)
    (perf_name : String) : (get_time_so_far CLOCKS_PER_SEC sw env perf_name).state = sw := by
  simp only [get_time_so_far]
  split
  · rfl
  · split <;> rfl

theorem get_total_time_state (sw : Stopwatch) (perf_name : String) :
    (get_total_time sw perf_name).state = sw := by
  simp only [get_total_time]
  split <;> rfl

theorem get_average_time_state (sw : Stopwatch) (perf_name : String) :
    (get_average_time sw perf_name).state = sw := by
  simp only [get_average_time]
  split <;> rfl

theorem get_min_time_state (sw : Stopwatch) (perf_name : String) :
    (get_min_time sw perf_name).state = sw := by
  simp only [get_min_time]
  split <;> rfl

theorem get_max_time_state (sw : Stopwatch) (perf_name : String) :
    (get_max_time sw perf_name).state = sw := by
  simp only [get_max_time]
  split <;> rfl

theorem get_last_time_state (sw : Stopwatch) (perf_name : String) :
    (get_last_time sw perf_name).state = sw := by
  simp only [get_last_time]
  split <;> rfl

/-- A property of the object that every `reset` keeps is kept by the loop of `reset_all`. -/
theorem reset_all_loop_keeps (I : Stopwatch → Prop)
    (hreset : ∀ (sw : Stopwatch) (n : String), I sw → I (reset sw n).state) :
    ∀ (names : List String) (sw : Stopwatch), I sw → I (reset_all_loop names sw).state
  | [], _, h => h
  | k :: rest, sw, h => by
    have hk := hreset sw k h
    rw [reset_all_loop]
    split
    · rename_i sw1 u heq
      have h1 : (reset sw k).state = sw1 := by rw [heq]
      rw [h1] at hk
      exact reset_all_loop_keeps I hreset rest sw1 hk
    · rename_i sw1 e heq
      have h1 : (reset sw k).state = sw1 := by rw [heq]
      rw [h1] at hk
      exact hk

theorem reset_all_keeps (I : Stopwatch → Prop)
    (hreset : ∀ (sw : Stopwatch) (n : String), I sw → I (reset sw n).state)
    (sw : Stopwatch) (h : I sw) : I (reset_all sw).state := by
  simp only [reset_all]
  split
  · exact h
  · exact reset_all_loop_keeps I hreset _ sw h

/-- A property of the map that `start`, `stop` and `pause` keep, and that the permitted
`reset` calls keep, is kept by every permitted call. -/
theorem step_keeps (CLOCKS_PER_SEC : ℚ) (I : Records → Prop) (permitted : Call → Prop)
    (hstart : ∀ (sw : Stopwatch) (env : TimeSource) (n : String),
      I sw.records_of → I (start sw env n).state.records_of)
    (hstop : ∀ (sw : Stopwatch) (env : TimeSource) (n : String),
      I sw.records_of → I (stop CLOCKS_PER_SEC sw env n).state.records_of)
    (hpause : ∀ (sw : Stopwatch) (env : TimeSource) (n : String),
      I sw.records_of → I (pause sw env n).state.records_of)
    (hreset : ∀ (sw : Stopwatch) (n : String), permitted (Call.reset n) →
      I sw.records_of → I (reset sw n).state.records_of)
    (hreset_all : ∀ sw : Stopwatch, permitted Call.reset_all →
      I sw.records_of → I (reset_all sw).state.records_of)
    (sw : Stopwatch) (c : Call) (hc : permitted c) (h : I sw.records_of) :
    I (step CLOCKS_PER_SEC sw c).records_of := by
  cases c with
  | set_mode new_mode => exact h
  | turn_on cout => exact h
  | turn_off cout => exact h
  | start env n => exact hstart sw env n h
  | stop env n => exact hstop sw env n h
  | pause env n => exact hpause sw env n h
  | reset n => exact hreset sw n hc h
  | reset_all => exact hreset_all sw hc h
  | report fmt n output =>
    show I (report fmt sw n output).1.state.records_of
    rw [report_state]; exact h
  | report_all fmt output =>
    show I (report_all fmt sw output).1.state.records_of
    rw [report_all_state]; exact h
  | get_time_so_far env n =>
    show I (get_time_so_far CLOCKS_PER_SEC sw env n).state.records_of
    rw [get_time_so_far_state]; exact h
  | get_total_time n =>
    show I (get_total_time sw n).state.records_of
    rw [get_total_time_state]; exact h
  | get_average_time n =>
    show I (get_average_time sw n).state.records_of
    rw [get_average_time_state]; exact h
  | get_min_time n =>
    show I (get_min_time sw n).state.records_of
    rw [get_min_time_state]; exact h
  | get_max_time n =>
    show I (get_max_time sw n).state.records_of
    rw [get_max_time_state]; exact h
  | get_last_time n =>
    show I (get_last_time sw n).state.records_of
    rw [get_last_time_state]; exact h

theorem run_keeps (CLOCKS_PER_SEC : ℚ) (I : Records → Prop) (permitted : Call → Prop)
    (hstep : ∀ (sw : Stopwatch) (c : Call), permitted c → I sw.records_of →
      I (step CLOCKS_PER_SEC sw c).records_of) :
    ∀ (calls : List Call) (sw : Stopwatch), (∀ c ∈ calls, permitted c) → I sw.records_of →
      I (run CLOCKS_PER_SEC sw calls).records_of
  | [], _, _, h => h
  | c :: rest, sw, hall, h => by
    have h1 := hstep sw c (hall c (List.mem_cons_self _ _)) h
    exact run_keeps CLOCKS_PER_SEC I permitted hstep rest (step CLOCKS_PER_SEC sw c)
      (fun d hd => hall d (List.mem_cons_of_mem _ hd)) h1

/-- Every call keeps `paused` false in every record. -/
theorem step_keeps_not_paused (CLOCKS_PER_SEC : ℚ) (sw : Stopwatch) (c : Call)
    (h : ∀ p ∈ sw.records_of, p.2.paused = false) :
    ∀ p ∈ (step CLOCKS_PER_SEC sw c).records_of, p.2.paused = false := by
  have hreset : ∀ (sw : Stopwatch) (n : String),
      (∀ p ∈ sw.records_of, p.2.paused = false) →
      ∀ p ∈ (reset sw n).state.records_of, p.2.paused = false := by
    intro sw n hsw
    obtain ⟨f, hf, hprop⟩ := reset_shape sw n
    rw [hf]
    apply Records.forall_update (fun v => v.paused = false) _ _ _ _ hsw
    intro v hv
    rcases hprop with hp | hp
    · rw [hp v]; exact hv
    · rw [hp v]
  apply step_keeps CLOCKS_PER_SEC (fun m => ∀ p ∈ m, p.2.paused = false) (fun _ => True)
    _ _ _ _ _ sw c trivial h
  · intro sw env n hsw
    obtain ⟨m, f, hm, hf, hprop⟩ := start_shape sw env n
    rw [hf]
    apply Records.forall_update (fun v => v.paused = false) _ _ _ (fun v => (hprop v).2.2.2.2)
    rcases hm with hm | hm
    · rw [hm]; exact hsw
    · rw [hm]
      exact Records.forall_insert (fun v => v.paused = false) _ _ _ rfl hsw
  · intro sw env n hsw
    obtain ⟨f, hf, hprop⟩ := stop_shape CLOCKS_PER_SEC sw env n
    rw [hf]
    exact Records.forall_update (fun v => v.paused = false) _ _ _
      (fun v hv => ((hprop v).1).trans hv) hsw
  · intro sw env n hsw
    obtain ⟨f, hf, hprop⟩ := pause_shape sw env n
    rw [hf]
    exact Records.forall_update (fun v => v.paused = false) _ _ _
      (fun v hv => ((hprop v).1).trans hv) hsw
  · intro sw n _ hsw
    exact hreset sw n hsw
  · intro sw _ hsw
    exact reset_all_keeps (fun s => ∀ p ∈ s.records_of, p.2.paused = false) hreset sw hsw

theorem run_keeps_not_paused (CLOCKS_PER_SEC : ℚ) (calls : List Call) :
    ∀ p ∈ (run CLOCKS_PER_SEC init calls).records_of, p.2.paused = false :=
  run_keeps CLOCKS_PER_SEC (fun m => ∀ p ∈ m, p.2.paused = false) (fun _ => True)
    (fun sw c _ h => step_keeps_not_paused CLOCKS_PER_SEC sw c h) calls init
    (fun _ _ => trivial) (by simp [init])

theorem bar_loop_data : ∀ (n : ℕ) (bar : String),
    (bar_loop n bar).data = bar.data ++ List.replicate n '='
  | 0, bar => by simp [bar_loop]
  | n + 1, bar => by
    rw [bar_loop, bar_loop_data n, String.data_append, List.replicate_succ, List.append_assoc]
    rfl

theorem Records.find_update (m : Records) (perf_name other : String)
    (f : PerformanceData → PerformanceData) :
    Records.find (Records.update m perf_name f) other
      = if perf_name = other then (Records.find m other).map f else Records.find m other := by
  by_cases hne : perf_name = other
  · subst hne
    simp [Records.find_update_same]
  · simp [hne, Records.find_update_ne _ _ _ _ hne]

theorem Records.find_insert_of_present (m : Records) (perf_name other : String)
    (v r : PerformanceData) (hrec : Records.find m other = some r) :
    Records.find (Records.insert m perf_name v) other = some r := by
  by_cases hne : perf_name = other
  · subst hne
    rw [Records.insert_present m perf_name v r hrec, hrec]
  · rw [Records.find_insert_ne _ _ _ _ hne, hrec]

theorem start_find_ne (sw : Stopwatch) (env : TimeSource) (perf_name other : String)
    (hne : perf_name ≠ other) :
    Records.find (start sw env perf_name).state.records_of other
      = Records.find sw.records_of other := by
  obtain ⟨m, f, hm, hf, _⟩ := start_shape sw env perf_name
  rw [hf, Records.find_update_ne _ _ _ _ hne]
  rcases hm with hm | hm
  · rw [hm]
  · rw [hm, Records.find_insert_ne _ _ _ _ hne]

theorem stop_find_ne (CLOCKS_PER_SEC : ℚ) (sw : Stopwatch) (env : TimeSource)
    (perf_name other : String) (hne : perf_name ≠ other) :
    Records.find (stop CLOCKS_PER_SEC sw env perf_name).state.records_of other
      = Records.find sw.records_of other := by
  obtain ⟨f, hf, _⟩ := stop_shape CLOCKS_PER_SEC sw env perf_name
  rw [hf, Records.find_update_ne _ _ _ _ hne]

theorem pause_find_ne (sw : Stopwatch) (env : TimeSource) (perf_name other : String)
    (hne : perf_name ≠ other) :
    Records.find (pause sw env perf_name).state.records_of other
      = Records.find sw.records_of other := by
  obtain ⟨f, hf, _⟩ := pause_shape sw env perf_name
  rw [hf, Records.find_update_ne _ _ _ _ hne]

theorem reset_find_ne (sw : Stopwatch) (perf_name other : String) (hne : perf_name ≠ other) :
    Records.find (reset sw perf_name).state.records_of other
      = Records.find sw.records_of other := by
  obtain ⟨f, hf, _⟩ := reset_shape sw perf_name
  rw [hf, Records.find_update_ne _ _ _ _ hne]

/-- Every call keeps `min_time` at most `max_time` in every record. -/
theorem step_keeps_min_le_max (CLOCKS_PER_SEC : ℚ) (sw : Stopwatch) (c : Call)
    (h : ∀ p ∈ sw.records_of, p.2.min_time ≤ p.2.max_time) :
    ∀ p ∈ (step CLOCKS_PER_SEC sw c).records_of, p.2.min_time ≤ p.2.max_time := by
  have hreset : ∀ (sw : Stopwatch) (n : String),
      (∀ p ∈ sw.records_of, p.2.min_time ≤ p.2.max_time) →
      ∀ p ∈ (reset sw n).state.records_of, p.2.min_time ≤ p.2.max_time := by
    intro sw n hsw
    obtain ⟨f, hf, hprop⟩ := reset_shape sw n
    rw [hf]
    apply Records.forall_update (fun v => v.min_time ≤ v.max_time) _ _ _ _ hsw
    intro v hv
    rcases hprop with hp | hp
    · rw [hp v]; exact hv
    · rw [hp v]
  apply step_keeps CLOCKS_PER_SEC (fun m => ∀ p ∈ m, p.2.min_time ≤ p.2.max_time)
    (fun _ => True) _ _ _ _ _ sw c trivial h
  · intro sw env n hsw
    obtain ⟨m, f, hm, hf, hprop⟩ := start_shape sw env n
    rw [hf]
    apply Records.forall_update (fun v => v.min_time ≤ v.max_time) _ _ _ _
    · rcases hm with hm | hm
      · rw [hm]; exact hsw
      · rw [hm]
        exact Records.forall_insert (fun v => v.min_time ≤ v.max_time) _ _ _
          (le_refl (0 : ℚ)) hsw
    · intro v hv
      show (f v).min_time ≤ (f v).max_time
      rw [(hprop v).2.1, (hprop v).2.2.1]
      exact hv
  · intro sw env n hsw
    obtain ⟨f, hf, hprop⟩ := stop_shape CLOCKS_PER_SEC sw env n
    rw [hf]
    exact Records.forall_update (fun v => v.min_time ≤ v.max_time) _ _ _
      (fun v hv => (hprop v).2.2 hv) hsw
  · intro sw env n hsw
    obtain ⟨f, hf, hprop⟩ := pause_shape sw env n
    rw [hf]
    apply Records.forall_update (fun v => v.min_time ≤ v.max_time) _ _ _ _ hsw
    intro v hv
    show (f v).min_time ≤ (f v).max_time
    rw [(hprop v).2.2.1, (hprop v).2.1]
    exact hv
  · intro sw n _ hsw
    exact hreset sw n hsw
  · intro sw _ hsw
    exact reset_all_keeps (fun s => ∀ p ∈ s.records_of, p.2.min_time ≤ p.2.max_time)
      hreset sw hsw

/-- A call that is neither `reset` of the name nor `reset_all` keeps the record of the name
and does not lower its `max_time`. -/
theorem step_keeps_max_bound (CLOCKS_PER_SEC : ℚ) (perf_name : String) (bound : ℚ)
    (sw : Stopwatch) (c : Call) (hc : Call.resets perf_name c = false)
    (h : ∃ r, Records.find sw.records_of perf_name = some r ∧ bound ≤ r.max_time) :
    ∃ r, Records.find (step CLOCKS_PER_SEC sw c).records_of perf_name = some r ∧
      bound ≤ r.max_time := by
  apply step_keeps CLOCKS_PER_SEC
    (fun m => ∃ r, Records.find m perf_name = some r ∧ bound ≤ r.max_time)
    (fun c => Call.resets perf_name c = false) _ _ _ _ _ sw c hc h
  · intro sw env n hsw
    obtain ⟨r, hr, hb⟩ := hsw
    obtain ⟨m, f, hm, hf, hprop⟩ := start_shape sw env n
    have hm2 : Records.find m perf_name = some r := by
      rcases hm with hm | hm
      · rw [hm]; exact hr
      · rw [hm]; exact Records.find_insert_of_present _ _ _ _ r hr
    show ∃ r, Records.find (start sw env n).state.records_of perf_name = some r ∧ _
    rw [hf, Records.find_update, hm2]
    by_cases hn : n = perf_name
    · exact ⟨f r, by simp [hn], by rw [(hprop r).2.2.1]; exact hb⟩
    · exact ⟨r, by simp [hn], hb⟩
  · intro sw env n hsw
    obtain ⟨r, hr, hb⟩ := hsw
    obtain ⟨f, hf, hprop⟩ := stop_shape CLOCKS_PER_SEC sw env n
    show ∃ r, Records.find (stop CLOCKS_PER_SEC sw env n).state.records_of perf_name
      = some r ∧ _
    rw [hf, Records.find_update, hr]
    by_cases hn : n = perf_name
    · exact ⟨f r, by simp [hn], le_trans hb (hprop r).2.1⟩
    · exact ⟨r, by simp [hn], hb⟩
  · intro sw env n hsw
    obtain ⟨r, hr, hb⟩ := hsw
    obtain ⟨f, hf, hprop⟩ := pause_shape sw env n
    show ∃ r, Records.find (pause sw env n).state.records_of perf_name = some r ∧ _
    rw [hf, Records.find_update, hr]
    by_cases hn : n = perf_name
    · exact ⟨f r, by simp [hn], by rw [(hprop r).2.1]; exact hb⟩
    · exact ⟨r, by simp [hn], hb⟩
  · intro sw n hperm hsw
    have hn : n ≠ perf_name := by
      intro heq
      simp [Call.resets, heq] at hperm
    show ∃ r, Records.find (reset sw n).state.records_of perf_name = some r ∧ _
    rw [reset_find_ne sw n perf_name hn]
    exact hsw
  · intro sw hperm _
    simp [Call.resets] at hperm

/-- No call removes a name from the map. -/
theorem step_keeps_presence (CLOCKS_PER_SEC : ℚ) (perf_name : String)
    (sw : Stopwatch) (c : Call)
    (h : (Records.find sw.records_of perf_name).isSome = true) :
    (Records.find (step CLOCKS_PER_SEC sw c).records_of perf_name).isSome = true := by
  have hupdate : ∀ (m : Records) (n : String) (f : PerformanceData → PerformanceData),
      (Records.find m perf_name).isSome = true →
      (Records.find (Records.update m n f) perf_name).isSome = true := by
    intro m n f hm
    rw [Records.find_update]
    split
    · simpa using hm
    · exact hm
  have hreset : ∀ (sw : Stopwatch) (n : String),
      (Records.find sw.records_of perf_name).isSome = true →
      (Records.find (reset sw n).state.records_of perf_name).isSome = true := by
    intro sw n hsw
    rw [reset_preserves_presence]
    exact hsw
  apply step_keeps CLOCKS_PER_SEC (fun m => (Records.find m perf_name).isSome = true)
    (fun _ => True) _ _ _ _ _ sw c trivial h
  · intro sw env n hsw
    obtain ⟨r, hr⟩ := Option.isSome_iff_exists.mp hsw
    obtain ⟨m, f, hm, hf, _⟩ := start_shape sw env n
    show (Records.find (start sw env n).state.records_of perf_name).isSome = true
    rw [hf]
    apply hupdate
    rcases hm with hm | hm
    · rw [hm]; exact hsw
    · rw [hm, Records.find_insert_of_present _ _ _ _ r hr]; rfl
  · intro sw env n hsw
    obtain ⟨f, hf, _⟩ := stop_shape CLOCKS_PER_SEC sw env n
    show (Records.find (stop CLOCKS_PER_SEC sw env n).state.records_of perf_name).isSome
      = true
    rw [hf]
    exact hupdate _ _ _ hsw
  · intro sw env n hsw
    obtain ⟨f, hf, _⟩ := pause_shape sw env n
    show (Records.find (pause sw env n).state.records_of perf_name).isSome = true
    rw [hf]
    exact hupdate _ _ _ hsw
  · intro sw n _ hsw
    exact hreset sw n hsw
  · intro sw _ hsw
    exact reset_all_keeps (fun s => (Records.find s.records_of perf_name).isSome = true)
      hreset sw hsw

/-- The record that `start` leaves under the name, whether the name had a record or not. -/
theorem start_find (sw : Stopwatch) (env : TimeSource) (perf_name : String)
    (r : PerformanceData) (sample : ℚ)
    (hactive : sw.active = true) (hs : take_time sw env = Except.ok sample)
    (hr : (Records.find sw.records_of perf_name).getD PerformanceData.new = r) :
    Records.find (start sw env perf_name).state.records_of perf_name
      = some { clock_start := sample, total_time := r.total_time, min_time := r.min_time,
               max_time := r.max_time, last_time := if r.paused then r.last_time else 0,
               paused := false, stops := r.stops } := by
  cases hrec : Records.find sw.records_of perf_name with
  | none =>
    rw [hrec] at hr
    rw [start_find_absent sw env perf_name sample hactive hs hrec, ← hr]
    simp [PerformanceData.new]
  | some r0 =>
    rw [hrec] at hr
    simp only [Option.getD_some] at hr
    rw [start_find_present sw env perf_name r0 sample hactive hs hrec, hr]

/-- Running minimum as `stop` keeps it, over lapses that are all positive. -/
theorem min_fold_spec : ∀ (rest : List ℚ) (m : ℚ), 0 < m → (∀ L ∈ rest, 0 < L) →
    rest.foldl (fun (m L : ℚ) => if L ≤ m ∨ m = 0 then L else m) m ∈ m :: rest ∧
    ∀ L ∈ m :: rest, rest.foldl (fun (m L : ℚ) => if L ≤ m ∨ m = 0 then L else m) m ≤ L
  | [], m, _, _ => by simp
  | L :: rest, m, hm, hpos => by
    have hL : 0 < L := hpos L (List.mem_cons_self _ _)
    have hrest : ∀ x ∈ rest, 0 < x := fun x hx => hpos x (List.mem_cons_of_mem _ hx)
    rw [List.foldl_cons]
    by_cases hle : L ≤ m
    · have hstep : (if L ≤ m ∨ m = 0 then L else m) = L := by simp [hle]
      rw [hstep]
      obtain ⟨hmem, hall⟩ := min_fold_spec rest L hL hrest
      refine ⟨List.mem_cons_of_mem _ hmem, ?_⟩
      intro x hx
      rcases List.mem_cons.mp hx with hx | hx
      · rw [hx]; exact le_trans (hall L (List.mem_cons_self _ _)) hle
      · exact hall x hx
    · have hstep : (if L ≤ m ∨ m = 0 then L else m) = m := by simp [hle, hm.ne']
      rw [hstep]
      obtain ⟨hmem, hall⟩ := min_fold_spec rest m hm hrest
      refine ⟨?_, ?_⟩
      · rcases List.mem_cons.mp hmem with h | h
        · rw [h]; exact List.mem_cons_self _ _
        · exact List.mem_cons_of_mem _ (List.mem_cons_of_mem _ h)
      · intro x hx
        rcases List.mem_cons.mp hx with hx | hx
        · rw [hx]; exact hall m (List.mem_cons_self _ _)
        · rcases List.mem_cons.mp hx with hx | hx
          · rw [hx]
            exact le_trans (hall m (List.mem_cons_self _ _)) (le_of_not_ge hle)
          · exact hall x (List.mem_cons_of_mem _ hx)

/-- Running maximum as `stop` keeps it. -/
theorem max_fold_spec : ∀ (rest : List ℚ) (m : ℚ),
    rest.foldl max m ∈ m :: rest ∧ ∀ L ∈ m :: rest, L ≤ rest.foldl max m
  | [], m => by simp
  | L :: rest, m => by
    rw [List.foldl_cons]
    obtain ⟨hmem, hall⟩ := max_fold_spec rest (max m L)
    have hmL : max m L ≤ rest.foldl max (max m L) := hall _ (List.mem_cons_self _ _)
    refine ⟨?_, ?_⟩
    · rcases List.mem_cons.mp hmem with h | h
      · rw [h]
        rcases max_choice m L with hc | hc
        · rw [hc]; exact List.mem_cons_self _ _
        · rw [hc]; exact List.mem_cons_of_mem _ (List.mem_cons_self _ _)
      · exact List.mem_cons_of_mem _ (List.mem_cons_of_mem _ h)
    · intro x hx
      rcases List.mem_cons.mp hx with hx | hx
      · rw [hx]; exact le_trans (le_max_left m L) hmL
      · rcases List.mem_cons.mp hx with hx | hx
        · rw [hx]; exact le_trans (le_max_right m L) hmL
        · exact hall x (List.mem_cons_of_mem _ hx)

/-- Consecutive cycles on one name, from any record that is not paused: every call succeeds
and the record is folded over the lapses as `stop` prescribes. -/
theorem cycles_from (CLOCKS_PER_SEC : ℚ) (perf_name : String) (sw0 : Stopwatch) :
    ∀ (envs : List (TimeSource × TimeSource)) (lapses : List ℚ) (sw : Stopwatch)
      (r : PerformanceData),
      sw.active = true → sw.mode = sw0.mode →
      (Records.find sw.records_of perf_name).getD PerformanceData.new = r →
      r.paused = false →
      List.Forall₂ (fun (p : TimeSource × TimeSource) (L : ℚ) =>
        ∃ s1 s2 : ℚ, take_time sw0 p.1 = Except.ok s1 ∧ take_time sw0 p.2 = Except.ok s2 ∧
          L = (if sw0.mode = StopwatchMode.CPU_TIME
                then (s2 - s1) / CLOCKS_PER_SEC else s2 - s1)) envs lapses →
      ∃ (sw2 : Stopwatch) (r2 : PerformanceData),
        cycles CLOCKS_PER_SEC perf_name envs sw = ⟨sw2, Except.ok ()⟩ ∧
        (Records.find sw2.records_of perf_name).getD PerformanceData.new = r2 ∧
        ((Records.find sw.records_of perf_name).isSome = true ∨ lapses ≠ [] →
          Records.find sw2.records_of perf_name = some r2) ∧
        r2.stops = r.stops + lapses.length ∧
        r2.total_time = r.total_time + lapses.sum ∧
        r2.min_time
          = lapses.foldl (fun (m L : ℚ) => if L ≤ m ∨ m = 0 then L else m) r.min_time ∧
        r2.max_time = lapses.foldl max r.max_time ∧
        r2.last_time = lapses.getLastD r.last_time
  | [], lapses, sw, r, _, _, hr, _, hrel => by
    cases hrel
    refine ⟨sw, r, rfl, hr, ?_, by simp, by simp, rfl, rfl, rfl⟩
    intro h
    rcases h with h | h
    · obtain ⟨r0, hr0⟩ := Option.isSome_iff_exists.mp h
      rw [hr0] at hr
      exact hr0.trans (congrArg some hr)
    · exact absurd rfl h
  | (e1, e2) :: envs, lapses, sw, r, hactive, hmode, hr, hpaused, hrel => by
    cases hrel with
    | cons hhead htail =>
      rename_i L rest
      obtain ⟨s1, s2, hs1, hs2, hL⟩ := hhead
      have ht1 : take_time sw e1 = Except.ok s1 := (take_time_congr sw0 sw e1 hmode).trans hs1
      have hm1 := start_mode sw e1 perf_name
      have ha1 : (start sw e1 perf_name).state.active = true :=
        (start_active sw e1 perf_name).trans hactive
      have hf1 := start_find sw e1 perf_name r s1 hactive ht1 hr
      have hr1 := start_result sw e1 perf_name s1 ht1
      generalize hsw1 : (start sw e1 perf_name).state = sw1 at hm1 ha1 hf1
      have hstart : start sw e1 perf_name = ⟨sw1, Except.ok ()⟩ := by rw [← hsw1, ← hr1]
      have ht2 : take_time sw1 e2 = Except.ok s2 :=
        (take_time_congr sw0 sw1 e2 (hm1.trans hmode)).trans hs2
      have hf2 := stop_find CLOCKS_PER_SEC sw1 e2 perf_name _ s2 L ha1 ht2 hf1
        (by rw [hL, hm1, hmode])
      have hr2 := stop_result CLOCKS_PER_SEC sw1 e2 perf_name _ s2 ha1 ht2 hf1
      have hm2 : (stop CLOCKS_PER_SEC sw1 e2 perf_name).state.mode = sw0.mode :=
        (stop_mode CLOCKS_PER_SEC sw1 e2 perf_name).trans (hm1.trans hmode)
      have ha2 : (stop CLOCKS_PER_SEC sw1 e2 perf_name).state.active = true :=
        (stop_active CLOCKS_PER_SEC sw1 e2 perf_name).trans ha1
      generalize hsw2 : (stop CLOCKS_PER_SEC sw1 e2 perf_name).state = sw2 at hm2 ha2 hf2
      have hstop : stop CLOCKS_PER_SEC sw1 e2 perf_name = ⟨sw2, Except.ok ()⟩ := by
        rw [← hsw2, ← hr2]
      simp only [hpaused, Bool.false_eq_true, if_false] at hf2
      obtain ⟨R, hfR, hR1, hR2, hR3, hR4, hR5, hR6⟩ : ∃ R : PerformanceData,
          Records.find sw2.records_of perf_name = some R ∧
          R.stops = r.stops + 1 ∧ R.total_time = r.total_time + L ∧
          R.min_time = (if L ≤ r.min_time ∨ r.min_time = 0 then L else r.min_time) ∧
          R.max_time = max r.max_time L ∧ R.last_time = L ∧ R.paused = false :=
        ⟨_, hf2, rfl, rfl, rfl, rfl, rfl, rfl⟩
      obtain ⟨sw3, r3, hcyc, hget, hpresent, hstops, htotal, hmin, hmax, hlast⟩ :=
        cycles_from CLOCKS_PER_SEC perf_name sw0 envs rest sw2 R ha2 hm2
          (by rw [hfR]; rfl) hR6 htail
      have hsome : Records.find sw3.records_of perf_name = some r3 :=
        hpresent (Or.inl (by rw [hfR]; rfl))
      refine ⟨sw3, r3, ?_, hget, fun _ => hsome, ?_, ?_, ?_, ?_, ?_⟩
      · rw [cycles, hstart]
        simp only []
        rw [hstop]
        exact hcyc
      · rw [hstops, hR1]
        simp only [List.length_cons]
        omega
      · rw [htotal, hR2]
        simp only [List.sum_cons]
        ring
      · rw [hmin, hR3, List.foldl_cons]
      · rw [hmax, hR4, List.foldl_cons]
      · rw [hlast, hR5]
        exact (List.getLastD_cons r.last_time L rest).symm

/-! ## The claims -/

/-- Claim C1: in an enabled registry with a time mode selected, for every name that has a
record and every reading of the clocks, `stop` succeeds and, with `lapse` the sample minus
`clock_start` (divided by `CLOCKS_PER_SEC` in `CPU_TIME` mode only), leaves under the name
the old record with `stops` increased by one, `last_time` set to `lapse`, `max_time` the
maximum of the old one and `lapse`, `min_time` set to `lapse` if `lapse` is at most the old
one or the old one is 0 (unchanged otherwise), `total_time` increased by `lapse`, and
`clock_start` and `paused` unchanged. -/
theorem stop_updates_record (CLOCKS_PER_SEC : ℚ) (sw : Stopwatch) (env : TimeSource)
    (perf_name : String) (r : PerformanceData)
    (hactive : sw.active = true) (hmode : sw.mode ≠ StopwatchMode.NONE)
    (hrec : Records.find sw.records_of perf_name = some r) :
    ∃ sample lapse : ℚ,
      take_time sw env = Except.ok sample ∧
      lapse = (if sw.mode = StopwatchMode.CPU_TIME
                then (sample - r.clock_start) / CLOCKS_PER_SEC else sample - r.clock_start) ∧
      (stop CLOCKS_PER_SEC sw env perf_name).result = Except.ok () ∧
      Records.find (stop CLOCKS_PER_SEC sw env perf_name).state.records_of perf_name
        = some { clock_start := r.clock_start,
                 total_time := r.total_time + lapse,
                 min_time := if lapse ≤ r.min_time ∨ r.min_time = 0 then lapse else r.min_time,
                 max_time := max r.max_time lapse,
                 last_time := lapse,
                 paused := r.paused,
                 stops := r.stops + 1 } := by
  obtain ⟨sample, hs⟩ := take_time_of_mode sw env hmode
  exact ⟨sample, _, hs, rfl, stop_result CLOCKS_PER_SEC sw env perf_name r sample hactive hs hrec,
    stop_find CLOCKS_PER_SEC sw env perf_name r sample _ hactive hs hrec rfl⟩

/-- The theorem of claim C1 at a concrete input: a lapse of 2 seconds. -/
theorem stop_updates_record_witness :
    Records.find (stop 1000000 example_running ⟨0, 3, 0⟩ "a").state.records_of "a"
      = some ⟨1, 2, 2, 2, 2, false, 1⟩ := by
  obtain ⟨sample, lapse, hs, hl, _, hfind⟩ :=
    stop_updates_record 1000000 example_running ⟨0, 3, 0⟩ "a" ⟨1, 0, 0, 0, 0, false, 0⟩
      rfl (by decide) (by simp [example_running, Records.find])
  have h3 : sample = 3 := by
    simp [take_time, example_running] at hs
    exact hs.symm
  subst h3
  have h2 : lapse = 2 := by
    rw [hl]; simp [example_running]; norm_num
  subst h2
  rw [hfind]
  norm_num

/-- Claim C2, as amended: in an enabled registry with a time mode selected, for every name
with no record and every two readings of the clocks, `start` followed by `stop` both succeed
and leave `stops = 1` and `last_time = min_time = total_time = lapse`, while `max_time` is
`max 0 lapse`: it is `lapse` when the lapse is not negative and stays 0 when it is.
`get_average_time` returns the same value as `get_total_time`. -/
theorem start_stop_first_lapse (CLOCKS_PER_SEC : ℚ) (sw : Stopwatch) (e1 e2 : TimeSource)
    (perf_name : String)
    (hactive : sw.active = true) (hmode : sw.mode ≠ StopwatchMode.NONE)
    (habsent : Records.find sw.records_of perf_name = none) :
    ∃ (s1 s2 lapse : ℚ) (sw1 sw2 : Stopwatch),
      take_time sw e1 = Except.ok s1 ∧ take_time sw e2 = Except.ok s2 ∧
      lapse = (if sw.mode = StopwatchMode.CPU_TIME
                then (s2 - s1) / CLOCKS_PER_SEC else s2 - s1) ∧
      start sw e1 perf_name = ⟨sw1, Except.ok ()⟩ ∧
      stop CLOCKS_PER_SEC sw1 e2 perf_name = ⟨sw2, Except.ok ()⟩ ∧
      Records.find sw2.records_of perf_name
        = some { clock_start := s1, total_time := lapse, min_time := lapse,
                 max_time := max 0 lapse, last_time := lapse, paused := false, stops := 1 } ∧
      (0 ≤ lapse → (get_max_time sw2 perf_name).result = Except.ok lapse) ∧
      (get_average_time sw2 perf_name).result = Except.ok (LongDouble.finite lapse) ∧
      (get_total_time sw2 perf_name).result = Except.ok lapse := by
  obtain ⟨s1, hs1⟩ := take_time_of_mode sw e1 hmode
  obtain ⟨s2, hs2⟩ := take_time_of_mode sw e2 hmode
  have hm1 := start_mode sw e1 perf_name
  have ha1 : (start sw e1 perf_name).state.active = true :=
    (start_active sw e1 perf_name).trans hactive
  have hf1 := start_find_absent sw e1 perf_name s1 hactive hs1 habsent
  have hs2' : take_time (start sw e1 perf_name).state e2 = Except.ok s2 :=
    (take_time_congr sw _ e2 hm1).trans hs2
  have hf2 := stop_find CLOCKS_PER_SEC _ e2 perf_name _ s2 _ ha1 hs2' hf1 rfl
  have hr2 := stop_result CLOCKS_PER_SEC _ e2 perf_name _ s2 ha1 hs2' hf1
  rw [hm1] at hf2
  simp only [zero_add, true_or, or_true, if_true] at hf2
  refine ⟨s1, s2, _, (start sw e1 perf_name).state,
    (stop CLOCKS_PER_SEC (start sw e1 perf_name).state e2 perf_name).state,
    hs1, hs2, rfl, ?_, ?_, hf2, ?_, ?_, ?_⟩
  · have := start_result sw e1 perf_name s1 hs1
    rw [← this]
  · rw [← hr2]
  · intro hnn
    rw [get_max_time_of_find _ _ _ hf2]
    simp [max_eq_right hnn]
  · rw [get_average_time_of_find _ _ _ hf2]
    simp [LongDouble.div]
  · rw [get_total_time_of_find _ _ _ hf2]

/-- The theorem of claim C2 at a concrete input: a lapse of 2.5 seconds. -/
theorem start_stop_first_lapse_witness :
    (get_total_time (stop 1000000 (start example_fresh ⟨0, 1, 0⟩ "a").state
      ⟨0, 3, 500000⟩ "a").state "a").result = Except.ok (5 / 2) := by
  obtain ⟨s1, s2, lapse, sw1, sw2, h1, h2, hl, hstart, hstop, _, _, _, htot⟩ :=
    start_stop_first_lapse 1000000 example_fresh ⟨0, 1, 0⟩ ⟨0, 3, 500000⟩ "a"
      rfl (by decide) rfl
  have e1 : s1 = 1 := by
    simp [take_time, example_fresh] at h1
    exact h1.symm
  have e2 : s2 = 7 / 2 := by
    simp [take_time, example_fresh] at h2
    rw [← h2]; norm_num
  have e3 : lapse = 5 / 2 := by
    rw [hl, e1, e2]; simp [example_fresh]; norm_num
  rw [hstart, hstop, htot, e3]

/-- Claim C2 as stated fails: a first lapse of -1 second leaves `max_time` at 0. -/
theorem first_lapse_negative_counterexample :
    Records.find (stop 1000000 (start example_fresh ⟨0, 1, 0⟩ "a").state
        ⟨0, 0, 0⟩ "a").state.records_of "a"
      = some { clock_start := 1, total_time := -1, min_time := -1, max_time := 0,
               last_time := -1, paused := false, stops := 1 } ∧
    (get_last_time (stop 1000000 (start example_fresh ⟨0, 1, 0⟩ "a").state
        ⟨0, 0, 0⟩ "a").state "a").result = Except.ok (-1) ∧
    (get_max_time (stop 1000000 (start example_fresh ⟨0, 1, 0⟩ "a").state
        ⟨0, 0, 0⟩ "a").state "a").result = Except.ok 0 := by
  have hstate : (stop 1000000 (start example_fresh ⟨0, 1, 0⟩ "a").state ⟨0, 0, 0⟩ "a").state
      = ⟨true, StopwatchMode.REAL_TIME, [("a", ⟨1, -1, -1, 0, -1, false, 1⟩)]⟩ := by
    simp [stop, start, example_fresh, take_time, Records.insert, Records.find, Records.place,
      Records.update, performance_exists, PerformanceData.new]
    norm_num
  rw [hstate]
  simp [Records.find, get_last_time, get_max_time]

/-- Claim C3, as amended: in an enabled registry with a time mode selected, for every name
with no record, two full start/stop cycles with lapses `L1` then `L2` succeed and give
total `L1 + L2`, average `(L1 + L2) / 2`, last `L2`, `stops = 2`, maximum
`max 0 (max L1 L2)` and minimum `L2` if `L1 = 0`, `min L1 L2` otherwise.  So the maximum is
`max L1 L2` when one of the lapses is not negative, and the minimum is `min L1 L2` when
`L1 ≠ 0` or `L2 ≤ 0`. -/
theorem two_cycles (CLOCKS_PER_SEC : ℚ) (sw : Stopwatch) (e1 e2 e3 e4 : TimeSource)
    (perf_name : String)
    (hactive : sw.active = true) (hmode : sw.mode ≠ StopwatchMode.NONE)
    (habsent : Records.find sw.records_of perf_name = none) :
    ∃ (s1 s2 s3 s4 L1 L2 : ℚ) (sw1 sw2 sw3 sw4 : Stopwatch) (r : PerformanceData),
      take_time sw e1 = Except.ok s1 ∧ take_time sw e2 = Except.ok s2 ∧
      take_time sw e3 = Except.ok s3 ∧ take_time sw e4 = Except.ok s4 ∧
      L1 = (if sw.mode = StopwatchMode.CPU_TIME then (s2 - s1) / CLOCKS_PER_SEC else s2 - s1) ∧
      L2 = (if sw.mode = StopwatchMode.CPU_TIME then (s4 - s3) / CLOCKS_PER_SEC else s4 - s3) ∧
      start sw e1 perf_name = ⟨sw1, Except.ok ()⟩ ∧
      stop CLOCKS_PER_SEC sw1 e2 perf_name = ⟨sw2, Except.ok ()⟩ ∧
      start sw2 e3 perf_name = ⟨sw3, Except.ok ()⟩ ∧
      stop CLOCKS_PER_SEC sw3 e4 perf_name = ⟨sw4, Except.ok ()⟩ ∧
      (get_total_time sw4 perf_name).result = Except.ok (L1 + L2) ∧
      (get_average_time sw4 perf_name).result = Except.ok (LongDouble.finite ((L1 + L2) / 2)) ∧
      (get_last_time sw4 perf_name).result = Except.ok L2 ∧
      Records.find sw4.records_of perf_name = some r ∧ r.stops = 2 ∧
      (get_max_time sw4 perf_name).result = Except.ok (max 0 (max L1 L2)) ∧
      (get_min_time sw4 perf_name).result = Except.ok (if L1 = 0 then L2 else min L1 L2) ∧
      ((0 ≤ L1 ∨ 0 ≤ L2) → (get_max_time sw4 perf_name).result = Except.ok (max L1 L2)) ∧
      ((L1 ≠ 0 ∨ L2 ≤ 0) → (get_min_time sw4 perf_name).result = Except.ok (min L1 L2)) := by
  obtain ⟨s1, hs1⟩ := take_time_of_mode sw e1 hmode
  obtain ⟨s2, hs2⟩ := take_time_of_mode sw e2 hmode
  obtain ⟨s3, hs3⟩ := take_time_of_mode sw e3 hmode
  obtain ⟨s4, hs4⟩ := take_time_of_mode sw e4 hmode
  -- first cycle
  have hm1 := start_mode sw e1 perf_name
  have ha1 : (start sw e1 perf_name).state.active = true :=
    (start_active sw e1 perf_name).trans hactive
  have hf1 := start_find_absent sw e1 perf_name s1 hactive hs1 habsent
  have hr1 := start_result sw e1 perf_name s1 hs1
  generalize hsw1 : (start sw e1 perf_name).state = sw1 at hm1 ha1 hf1
  have ht2 : take_time sw1 e2 = Except.ok s2 := (take_time_congr sw _ e2 hm1).trans hs2
  have hf2 := stop_find CLOCKS_PER_SEC sw1 e2 perf_name _ s2 _ ha1 ht2 hf1 rfl
  have hr2 := stop_result CLOCKS_PER_SEC sw1 e2 perf_name _ s2 ha1 ht2 hf1
  have hm2 : (stop CLOCKS_PER_SEC sw1 e2 perf_name).state.mode = sw.mode :=
    (stop_mode CLOCKS_PER_SEC sw1 e2 perf_name).trans hm1
  have ha2 : (stop CLOCKS_PER_SEC sw1 e2 perf_name).state.active = true :=
    (stop_active CLOCKS_PER_SEC sw1 e2 perf_name).trans ha1
  rw [hm1] at hf2
  simp only [zero_add, true_or, or_true, if_true] at hf2
  generalize hsw2 : (stop CLOCKS_PER_SEC sw1 e2 perf_name).state = sw2 at hm2 ha2 hf2
  generalize hL1 : (if sw.mode = StopwatchMode.CPU_TIME
      then (s2 - s1) / CLOCKS_PER_SEC else s2 - s1) = L1 at hf2
  -- second cycle
  have ht3 : take_time sw2 e3 = Except.ok s3 := (take_time_congr sw _ e3 hm2).trans hs3
  have hm3 : (start sw2 e3 perf_name).state.mode = sw.mode :=
    (start_mode sw2 e3 perf_name).trans hm2
  have ha3 : (start sw2 e3 perf_name).state.active = true :=
    (start_active sw2 e3 perf_name).trans ha2
  have hf3 := start_find_present sw2 e3 perf_name _ s3 ha2 ht3 hf2
  have hr3 := start_result sw2 e3 perf_name s3 ht3
  simp only [Bool.false_eq_true, if_false] at hf3
  generalize hsw3 : (start sw2 e3 perf_name).state = sw3 at hm3 ha3 hf3
  have ht4 : take_time sw3 e4 = Except.ok s4 := (take_time_congr sw _ e4 hm3).trans hs4
  have hf4 := stop_find CLOCKS_PER_SEC sw3 e4 perf_name _ s4 _ ha3 ht4 hf3 rfl
  have hr4 := stop_result CLOCKS_PER_SEC sw3 e4 perf_name _ s4 ha3 ht4 hf3
  rw [hm3] at hf4
  simp only [] at hf4
  generalize hsw4 : (stop CLOCKS_PER_SEC sw3 e4 perf_name).state = sw4 at hf4
  generalize hL2 : (if sw.mode = StopwatchMode.CPU_TIME
      then (s4 - s3) / CLOCKS_PER_SEC else s4 - s3) = L2 at hf4
  have hmax : max (max 0 L1) L2 = max 0 (max L1 L2) := max_assoc 0 L1 L2
  have hmin : (if L2 ≤ L1 ∨ L1 = 0 then L2 else L1) = (if L1 = 0 then L2 else min L1 L2) := by
    by_cases h0 : L1 = 0
    · simp [h0]
    · by_cases hle : L2 ≤ L1
      · simp [h0, hle]
      · simp [h0, hle, min_eq_left (le_of_not_ge hle)]
  rw [hmax, hmin] at hf4
  refine ⟨s1, s2, s3, s4, L1, L2, sw1, sw2, sw3, sw4, _, hs1, hs2, hs3, hs4, hL1.symm, hL2.symm,
    ?_, ?_, ?_, ?_, ?_, ?_, ?_, hf4, ?_, ?_, ?_, ?_, ?_⟩
  · rw [← hsw1, ← hr1]
  · rw [← hsw2, ← hr2]
  · rw [← hsw3, ← hr3]
  · rw [← hsw4, ← hr4]
  · rw [get_total_time_of_find _ _ _ hf4]
  · rw [get_average_time_of_find _ _ _ hf4]
    simp [LongDouble.div]
  · rw [get_last_time_of_find _ _ _ hf4]
  · rfl
  · rw [get_max_time_of_find _ _ _ hf4]
  · rw [get_min_time_of_find _ _ _ hf4]
  · intro h
    rw [get_max_time_of_find _ _ _ hf4]
    have : 0 ≤ max L1 L2 := by
      rcases h with h | h
      · exact le_trans h (le_max_left _ _)
      · exact le_trans h (le_max_right _ _)
    simp [max_eq_right this]
  · intro h
    rw [get_min_time_of_find _ _ _ hf4]
    by_cases h0 : L1 = 0
    · have hL2 : L2 ≤ 0 := by
        rcases h with h | h
        · exact absurd h0 h
        · exact h
      simp [h0, min_eq_right hL2]
    · simp [h0]

/-- The theorem of claim C3 at a concrete input: lapses of 1 and 2 seconds. -/
theorem two_cycles_witness :
    (get_average_time (stop 1000000 (start (stop 1000000 (start example_fresh
        ⟨0, 1, 0⟩ "a").state ⟨0, 2, 0⟩ "a").state ⟨0, 5, 0⟩ "a").state ⟨0, 7, 0⟩ "a").state
      "a").result = Except.ok (LongDouble.finite (3 / 2)) := by
  obtain ⟨s1, s2, s3, s4, L1, L2, sw1, sw2, sw3, sw4, r, h1, h2, h3, h4, hL1, hL2,
      hstart1, hstop1, hstart2, hstop2, _, havg, _⟩ :=
    two_cycles 1000000 example_fresh ⟨0, 1, 0⟩ ⟨0, 2, 0⟩ ⟨0, 5, 0⟩ ⟨0, 7, 0⟩ "a"
      rfl (by decide) rfl
  simp [take_time, example_fresh] at h1 h2 h3 h4
  subst h1 h2 h3 h4
  have e1 : L1 = 1 := by rw [hL1]; simp [example_fresh]; norm_num
  have e2 : L2 = 2 := by rw [hL2]; simp [example_fresh]; norm_num
  rw [hstart1, hstop1, hstart2, hstop2, havg, e1, e2]
  norm_num

/-- Claim C3 as stated fails: lapses 0 then 1 give the minimum 1, and lapses -1 then -2
give the maximum 0. -/
theorem two_cycles_counterexample :
    (get_min_time (stop 1000000 (start (stop 1000000 (start example_fresh
        ⟨0, 1, 0⟩ "a").state ⟨0, 1, 0⟩ "a").state ⟨0, 1, 0⟩ "a").state ⟨0, 2, 0⟩ "a").state
      "a").result = Except.ok 1 ∧
    (1 : ℚ) ≠ min (1 - 1) (2 - 1) ∧
    (get_max_time (stop 1000000 (start (stop 1000000 (start example_fresh
        ⟨0, 1, 0⟩ "a").state ⟨0, 0, 0⟩ "a").state ⟨0, 8, 0⟩ "a").state ⟨0, 6, 0⟩ "a").state
      "a").result = Except.ok 0 ∧
    (0 : ℚ) ≠ max (0 - 1) (6 - 8) := by
  refine ⟨?_, by norm_num, ?_, by norm_num⟩
  · have hstate : (stop 1000000 (start (stop 1000000 (start example_fresh
        ⟨0, 1, 0⟩ "a").state ⟨0, 1, 0⟩ "a").state ⟨0, 1, 0⟩ "a").state ⟨0, 2, 0⟩ "a").state
        = ⟨true, StopwatchMode.REAL_TIME, [("a", ⟨1, 1, 1, 1, 1, false, 2⟩)]⟩ := by
      simp [stop, start, example_fresh, take_time, Records.insert, Records.find, Records.place,
        Records.update, performance_exists, PerformanceData.new]
      norm_num
    rw [hstate]
    simp [Records.find, get_min_time]
  · have hstate : (stop 1000000 (start (stop 1000000 (start example_fresh
        ⟨0, 1, 0⟩ "a").state ⟨0, 0, 0⟩ "a").state ⟨0, 8, 0⟩ "a").state ⟨0, 6, 0⟩ "a").state
        = ⟨true, StopwatchMode.REAL_TIME, [("a", ⟨8, -3, -2, 0, -2, false, 2⟩)]⟩ := by
      simp [stop, start, example_fresh, take_time, Records.insert, Records.find, Records.place,
        Records.update, performance_exists, PerformanceData.new]
      norm_num
    rw [hstate]
    simp [Records.find, get_max_time]

/-- Claim C4, as amended: in an enabled registry, for a name that has no record, `pause`,
`reset` and `report` fail with "Performance not initialized." whatever the mode is, and so
does `stop` when the mode is `CPU_TIME` or `REAL_TIME`; when the mode is `NONE`, `stop`
fails with the error of `take_time`, "Clock not initialized to a time taking mode!", because
it takes the time before it looks the name up. -/
theorem unknown_name_errors (CLOCKS_PER_SEC : ℚ) (fmt : LongDouble → String) (sw : Stopwatch)
    (env : TimeSource) (perf_name : String) (output : String)
    (hactive : sw.active = true)
    (habsent : Records.find sw.records_of perf_name = none) :
    (pause sw env perf_name).result = Except.error ⟨"Performance not initialized."⟩ ∧
    (reset sw perf_name).result = Except.error ⟨"Performance not initialized."⟩ ∧
    (report fmt sw perf_name output).1.result
      = Except.error ⟨"Performance not initialized."⟩ ∧
    (sw.mode ≠ StopwatchMode.NONE →
      (stop CLOCKS_PER_SEC sw env perf_name).result
        = Except.error ⟨"Performance not initialized."⟩) ∧
    (sw.mode = StopwatchMode.NONE →
      (stop CLOCKS_PER_SEC sw env perf_name).result
        = Except.error ⟨"Clock not initialized to a time taking mode!"⟩) := by
  refine ⟨?_, ?_, ?_, ?_, ?_⟩
  · simp [pause, hactive, performance_exists, habsent, performance_not_initialized]
  · simp [reset, hactive, performance_exists, habsent, performance_not_initialized]
  · simp [report, hactive, habsent, performance_not_initialized]
  · intro hmode
    obtain ⟨sample, hs⟩ := take_time_of_mode sw env hmode
    simp [stop, hactive, hs, performance_exists, habsent, performance_not_initialized]
  · intro hmode
    simp [stop, hactive, take_time, hmode, clock_not_initialized]

/-- The theorem of claim C4 at a concrete input: the name `b` in a registry that only
knows `a`. -/
theorem unknown_name_errors_witness :
    (pause example_running ⟨0, 0, 0⟩ "b").result
      = Except.error ⟨"Performance not initialized."⟩ ∧
    (stop 1000000 example_running ⟨0, 0, 0⟩ "b").result
      = Except.error ⟨"Performance not initialized."⟩ :=
  have h := unknown_name_errors 1000000 (fun _ => "") example_running ⟨0, 0, 0⟩ "b" ""
    rfl (by simp [example_running, Records.find])
  ⟨h.1, h.2.2.2.1 (by decide)⟩

/-- Claim C4 as stated fails: on a new registry (enabled, mode `NONE`, no record) `stop`
fails with the clock error, not with "Performance not initialized.". -/
theorem unknown_name_errors_counterexample :
    (stop 1000000 init ⟨0, 0, 0⟩ "a").result
      = Except.error ⟨"Clock not initialized to a time taking mode!"⟩ ∧
    (stop 1000000 init ⟨0, 0, 0⟩ "a").result
      ≠ Except.error ⟨"Performance not initialized."⟩ := by
  have h : (stop 1000000 init ⟨0, 0, 0⟩ "a").result
      = Except.error ⟨"Clock not initialized to a time taking mode!"⟩ := by
    simp [stop, init, take_time, clock_not_initialized]
  refine ⟨h, ?_⟩
  rw [h]
  simp

/-- Claim C5, as amended: in an enabled registry whose mode is `NONE`, `start` and `stop`
fail with "Clock not initialized to a time taking mode!" for every name and every content
of the registry, and `get_time_so_far` fails with it for every name that has a record;
for a name that has no record `get_time_so_far` fails with "Performance not initialized."
instead, because it looks the name up before it takes the time. -/
theorem no_mode_errors (CLOCKS_PER_SEC : ℚ) (sw : Stopwatch) (env : TimeSource)
    (perf_name : String)
    (hactive : sw.active = true) (hmode : sw.mode = StopwatchMode.NONE) :
    (start sw env perf_name).result
      = Except.error ⟨"Clock not initialized to a time taking mode!"⟩ ∧
    (stop CLOCKS_PER_SEC sw env perf_name).result
      = Except.error ⟨"Clock not initialized to a time taking mode!"⟩ ∧
    ((Records.find sw.records_of perf_name).isSome = true →
      (get_time_so_far CLOCKS_PER_SEC sw env perf_name).result
        = Except.error ⟨"Clock not initialized to a time taking mode!"⟩) ∧
    (Records.find sw.records_of perf_name = none →
      (get_time_so_far CLOCKS_PER_SEC sw env perf_name).result
        = Except.error ⟨"Performance not initialized."⟩) := by
  refine ⟨?_, ?_, ?_, ?_⟩
  · simp [start, hactive, take_time, hmode, clock_not_initialized]
  · simp [stop, hactive, take_time, hmode, clock_not_initialized]
  · intro hsome
    obtain ⟨r, hr⟩ := Option.isSome_iff_exists.mp hsome
    simp [get_time_so_far, hr, take_time, hmode, clock_not_initialized]
  · intro hnone
    simp [get_time_so_far, hnone, performance_not_initialized]

/-- The theorem of claim C5 at a concrete input: a new registry. -/
theorem no_mode_errors_witness :
    (start init ⟨0, 0, 0⟩ "a").result
      = Except.error ⟨"Clock not initialized to a time taking mode!"⟩ :=
  (no_mode_errors 1000000 init ⟨0, 0, 0⟩ "a" rfl rfl).1

/-- Claim C5 as stated fails: on a new registry (enabled, mode `NONE`, no record)
`get_time_so_far` fails with "Performance not initialized.", not with the clock error; and
`pause` of a name that has a record succeeds in mode `NONE`. -/
theorem no_mode_errors_counterexample :
    (get_time_so_far 1000000 init ⟨0, 0, 0⟩ "a").result
      = Except.error ⟨"Performance not initialized."⟩ ∧
    (get_time_so_far 1000000 init ⟨0, 0, 0⟩ "a").result
      ≠ Except.error ⟨"Clock not initialized to a time taking mode!"⟩ ∧
    (pause example_no_mode ⟨7, 0, 0⟩ "a").result = Except.ok () := by
  have h : (get_time_so_far 1000000 init ⟨0, 0, 0⟩ "a").result
      = Except.error ⟨"Performance not initialized."⟩ := by
    simp [get_time_so_far, init, Records.find, performance_not_initialized]
  refine ⟨h, ?_, ?_⟩
  · rw [h]
    simp
  · simp [pause, example_no_mode, performance_exists, Records.find]

/-- Claim C6: while the registry is disabled, `start`, `stop`, `pause`, `reset`, `reset_all`,
`report` and `report_all` return without error for every name and every mode, write nothing
to the sink and leave the whole object unchanged; and `get_total_time`, `get_min_time`,
`get_max_time` and `get_last_time` on a name that has a record succeed and return the
stored values. -/
theorem disabled_is_noop (CLOCKS_PER_SEC : ℚ) (fmt : LongDouble → String) (sw : Stopwatch)
    (env : TimeSource) (perf_name : String) (output : String)
    (hoff : sw.active = false) :
    start sw env perf_name = ⟨sw, Except.ok ()⟩ ∧
    stop CLOCKS_PER_SEC sw env perf_name = ⟨sw, Except.ok ()⟩ ∧
    pause sw env perf_name = ⟨sw, Except.ok ()⟩ ∧
    reset sw perf_name = ⟨sw, Except.ok ()⟩ ∧
    reset_all sw = ⟨sw, Except.ok ()⟩ ∧
    report fmt sw perf_name output = (⟨sw, Except.ok ()⟩, output) ∧
    report_all fmt sw output = (⟨sw, Except.ok ()⟩, output) ∧
    (∀ r : PerformanceData, Records.find sw.records_of perf_name = some r →
      get_total_time sw perf_name = ⟨sw, Except.ok r.total_time⟩ ∧
      get_min_time sw perf_name = ⟨sw, Except.ok r.min_time⟩ ∧
      get_max_time sw perf_name = ⟨sw, Except.ok r.max_time⟩ ∧
      get_last_time sw perf_name = ⟨sw, Except.ok r.last_time⟩) := by
  refine ⟨?_, ?_, ?_, ?_, ?_, ?_, ?_, ?_⟩
  · simp [start, hoff]
  · simp [stop, hoff]
  · simp [pause, hoff]
  · simp [reset, hoff]
  · simp [reset_all, hoff]
  · simp [report, hoff]
  · simp [report_all, hoff]
  · intro r hrec
    exact ⟨get_total_time_of_find sw perf_name r hrec, get_min_time_of_find sw perf_name r hrec,
      get_max_time_of_find sw perf_name r hrec, get_last_time_of_find sw perf_name r hrec⟩

/-- The theorem of claim C6 at a concrete input: a disabled registry with one record. -/
theorem disabled_is_noop_witness :
    stop 1000000 example_disabled ⟨0, 9, 0⟩ "a" = ⟨example_disabled, Except.ok ()⟩ ∧
    get_total_time example_disabled "a" = ⟨example_disabled, Except.ok 5⟩ :=
  have h := disabled_is_noop 1000000 (fun _ => "") example_disabled ⟨0, 9, 0⟩ "a" "" rfl
  ⟨h.2.1, (h.2.2.2.2.2.2.2 ⟨1, 5, 2, 3, 3, false, 2⟩
    (by simp [example_disabled, Records.find])).1⟩

/-- Claim C7: in an enabled registry, for every name that has a record, `reset` succeeds and
leaves the record present with `clock_start`, `total_time`, `min_time`, `max_time`,
`last_time` and `stops` all 0 and `paused` false, so that `get_total_time` then returns 0;
a second `reset` changes nothing more. -/
theorem reset_zeroes_record (sw : Stopwatch) (perf_name : String) (r : PerformanceData)
    (hactive : sw.active = true)
    (hrec : Records.find sw.records_of perf_name = some r) :
    (reset sw perf_name).result = Except.ok () ∧
    Records.find (reset sw perf_name).state.records_of perf_name
      = some { clock_start := 0, total_time := 0, min_time := 0, max_time := 0,
               last_time := 0, paused := false, stops := 0 } ∧
    get_total_time (reset sw perf_name).state perf_name
      = ⟨(reset sw perf_name).state, Except.ok 0⟩ ∧
    reset (reset sw perf_name).state perf_name = reset sw perf_name := by
  have hfind : Records.find (reset sw perf_name).state.records_of perf_name
      = some { clock_start := 0, total_time := 0, min_time := 0, max_time := 0,
               last_time := 0, paused := false, stops := 0 } := by
    simp [reset, hactive, performance_exists, hrec, Records.find_update_same]
  refine ⟨?_, hfind, ?_, ?_⟩
  · simp [reset, hactive, performance_exists, hrec]
  · rw [get_total_time_of_find _ _ _ hfind]
  · simp [reset, hactive, performance_exists, hrec, Records.find_update_same,
      Records.update_update_same]

/-- The theorem of claim C7 at a concrete input. -/
theorem reset_zeroes_record_witness :
    Records.find (reset example_stopped "a").state.records_of "a"
      = some { clock_start := 0, total_time := 0, min_time := 0, max_time := 0,
               last_time := 0, paused := false, stops := 0 } :=
  (reset_zeroes_record example_stopped "a" ⟨1, 5, 2, 3, 3, false, 2⟩ rfl
    (by simp [example_stopped, Records.find])).2.1

/-- Claim C8, as amended: for every registry, `reset_all` succeeds and gives the same object
as calling `reset` once for every name in the registry, in any order, and the names are
unchanged; in an enabled registry every record is zeroed, in a disabled one nothing
changes; on a registry with no names it succeeds and changes nothing. -/
theorem reset_all_is_reset_each (sw : Stopwatch) (names : List String)
    (hperm : names.Perm (Records.names sw.records_of)) :
    reset_all sw = reset_all_loop names sw ∧
    reset_all sw = ⟨names.foldl (fun s n => (reset s n).state) sw, Except.ok ()⟩ ∧
    Records.names (reset_all sw).state.records_of = Records.names sw.records_of ∧
    (sw.active = true → ∀ (n : String) (r : PerformanceData),
      Records.find sw.records_of n = some r →
      Records.find (reset_all sw).state.records_of n
        = some { clock_start := 0, total_time := 0, min_time := 0, max_time := 0,
                 last_time := 0, paused := false, stops := 0 }) ∧
    (sw.active = false → reset_all sw = ⟨sw, Except.ok ()⟩) ∧
    (sw.records_of = [] → reset_all sw = ⟨sw, Except.ok ()⟩) := by
  have hall : ∀ n ∈ names, (Records.find sw.records_of n).isSome = true := fun n hn =>
    (Records.mem_names_iff sw.records_of n).mp (hperm.subset hn)
  have hall2 : ∀ n ∈ Records.names sw.records_of,
      (Records.find sw.records_of n).isSome = true := fun n hn =>
    (Records.mem_names_iff sw.records_of n).mp hn
  have hfold : names.foldl (fun s n => (reset s n).state) sw
      = (Records.names sw.records_of).foldl (fun s n => (reset s n).state) sw :=
    List.Perm.foldl_eq' hperm (fun x _ y _ z => reset_comm z x y) sw
  have hmain : reset_all sw
      = ⟨names.foldl (fun s n => (reset s n).state) sw, Except.ok ()⟩ := by
    cases hactive : sw.active with
    | false =>
      rw [reset_fold_inactive names sw hactive]
      simp [reset_all, hactive]
    | true =>
      rw [hfold, ← reset_all_loop_eq _ sw hall2]
      simp [reset_all, hactive]
  refine ⟨?_, hmain, ?_, ?_, ?_, ?_⟩
  · rw [hmain, reset_all_loop_eq names sw hall]
  · rw [hmain]
    exact reset_fold_names names sw
  · intro hactive n r hr
    rw [hmain]
    have hpresent : (Records.find sw.records_of n).isSome = true := by simp [hr]
    exact reset_fold_zeroes names sw n hactive
      (hperm.symm.subset ((Records.mem_names_iff sw.records_of n).mpr hpresent)) hpresent
  · intro hoff
    simp [reset_all, hoff]
  · intro hempty
    cases hactive : sw.active <;> simp [reset_all, hactive, hempty, Records.names, reset_all_loop]

/-- The theorem of claim C8 at a concrete input: `reset_all` on a registry with the names
`a` and `b` equals `reset` of `b` followed by `reset` of `a`. -/
theorem reset_all_is_reset_each_witness :
    reset_all example_two
      = ⟨(reset (reset example_two "b").state "a").state, Except.ok ()⟩ :=
  (reset_all_is_reset_each example_two ["b", "a"] (List.Perm.swap "a" "b" [])).2.1

/-- Claim C8 as stated fails: on a disabled registry `reset_all` zeroes nothing, the record
of `a` keeps its values. -/
theorem reset_all_disabled_counterexample :
    Records.find (reset_all example_disabled).state.records_of "a"
      = some { clock_start := 1, total_time := 5, min_time := 2, max_time := 3,
               last_time := 3, paused := false, stops := 2 } ∧
    Records.find (reset_all example_disabled).state.records_of "a"
      ≠ some { clock_start := 0, total_time := 0, min_time := 0, max_time := 0,
               last_time := 0, paused := false, stops := 0 } := by
  have h : Records.find (reset_all example_disabled).state.records_of "a"
      = some { clock_start := 1, total_time := 5, min_time := 2, max_time := 3,
               last_time := 3, paused := false, stops := 2 } := by
    simp [reset_all, example_disabled, Records.find]
  refine ⟨h, ?_⟩
  rw [h]
  simp

/-- Claim C9: for every registry, enabled or disabled and whatever the mode, each of
`get_total_time`, `get_min_time`, `get_max_time` and `get_last_time` fails if and only if
the name has no record, returns the stored field otherwise, and leaves the object
unchanged. -/
theorem stored_field_queries (sw : Stopwatch) (perf_name : String) :
    (get_total_time sw perf_name).state = sw ∧
    (get_min_time sw perf_name).state = sw ∧
    (get_max_time sw perf_name).state = sw ∧
    (get_last_time sw perf_name).state = sw ∧
    ((∃ e, (get_total_time sw perf_name).result = Except.error e)
      ↔ Records.find sw.records_of perf_name = none) ∧
    ((∃ e, (get_min_time sw perf_name).result = Except.error e)
      ↔ Records.find sw.records_of perf_name = none) ∧
    ((∃ e, (get_max_time sw perf_name).result = Except.error e)
      ↔ Records.find sw.records_of perf_name = none) ∧
    ((∃ e, (get_last_time sw perf_name).result = Except.error e)
      ↔ Records.find sw.records_of perf_name = none) ∧
    (∀ r : PerformanceData, Records.find sw.records_of perf_name = some r →
      (get_total_time sw perf_name).result = Except.ok r.total_time ∧
      (get_min_time sw perf_name).result = Except.ok r.min_time ∧
      (get_max_time sw perf_name).result = Except.ok r.max_time ∧
      (get_last_time sw perf_name).result = Except.ok r.last_time) := by
  cases hrec : Records.find sw.records_of perf_name with
  | none => simp [get_total_time, get_min_time, get_max_time, get_last_time, hrec]
  | some r => simp [get_total_time, get_min_time, get_max_time, get_last_time, hrec]

/-- Claim C10: for every registry with a time mode selected, enabled or disabled, and every
name that has a record, `get_time_so_far` returns the sample minus `clock_start`, divided by
`CLOCKS_PER_SEC` exactly when the mode is `CPU_TIME`, and leaves the object unchanged. -/
theorem get_time_so_far_peeks (CLOCKS_PER_SEC : ℚ) (sw : Stopwatch) (env : TimeSource)
    (perf_name : String) (r : PerformanceData)
    (hmode : sw.mode ≠ StopwatchMode.NONE)
    (hrec : Records.find sw.records_of perf_name = some r) :
    ∃ sample : ℚ, take_time sw env = Except.ok sample ∧
      get_time_so_far CLOCKS_PER_SEC sw env perf_name
        = ⟨sw, Except.ok (if sw.mode = StopwatchMode.CPU_TIME
              then (sample - r.clock_start) / CLOCKS_PER_SEC else sample - r.clock_start)⟩ := by
  obtain ⟨sample, hs⟩ := take_time_of_mode sw env hmode
  refine ⟨sample, hs, ?_⟩
  simp [get_time_so_far, hrec, hs]

/-- The theorem of claim C10 at a concrete input: a disabled registry in `CPU_TIME` mode,
3000 ticks after the start, at 1000 ticks per second. -/
theorem get_time_so_far_peeks_witness :
    get_time_so_far 1000 example_cpu_disabled ⟨4000, 0, 0⟩ "a"
      = ⟨example_cpu_disabled, Except.ok 3⟩ := by
  obtain ⟨sample, hs, hget⟩ :=
    get_time_so_far_peeks 1000 example_cpu_disabled ⟨4000, 0, 0⟩ "a" ⟨1000, 0, 0, 0, 0, false, 0⟩
      (by decide) (by simp [example_cpu_disabled, Records.find])
  simp [take_time, example_cpu_disabled] at hs
  subst hs
  rw [hget]
  simp [example_cpu_disabled]
  norm_num

/-- Claim C11: in an enabled registry with a time mode selected, for every name and every
reading of the clocks, `start` succeeds.  For a name that had no record it leaves a record
with `clock_start` equal to the sample and every other field zero, `paused` false.  For a
name that had one it leaves that record with `clock_start` equal to the sample, `paused`
false, `last_time` 0 if the record was not paused and unchanged if it was, and `stops`,
`min_time`, `max_time` and `total_time` unchanged. -/
theorem start_sets_clock_start (sw : Stopwatch) (env : TimeSource) (perf_name : String)
    (hactive : sw.active = true) (hmode : sw.mode ≠ StopwatchMode.NONE) :
    ∃ sample : ℚ,
      take_time sw env = Except.ok sample ∧
      (start sw env perf_name).result = Except.ok () ∧
      (Records.find sw.records_of perf_name = none →
        Records.find (start sw env perf_name).state.records_of perf_name
          = some { clock_start := sample, total_time := 0, min_time := 0, max_time := 0,
                   last_time := 0, paused := false, stops := 0 }) ∧
      (∀ r : PerformanceData, Records.find sw.records_of perf_name = some r →
        Records.find (start sw env perf_name).state.records_of perf_name
          = some { clock_start := sample, total_time := r.total_time,
                   min_time := r.min_time, max_time := r.max_time,
                   last_time := if r.paused = true then r.last_time else 0,
                   paused := false, stops := r.stops }) := by
  obtain ⟨sample, hs⟩ := take_time_of_mode sw env hmode
  exact ⟨sample, hs, start_result sw env perf_name sample hs,
    fun habsent => start_find_absent sw env perf_name sample hactive hs habsent,
    fun r hrec => start_find_present sw env perf_name r sample hactive hs hrec⟩

/-- The theorem of claim C11 at a concrete input: a paused record keeps its `last_time`. -/
theorem start_sets_clock_start_witness :
    Records.find (start example_paused ⟨0, 9, 0⟩ "a").state.records_of "a"
      = some { clock_start := 9, total_time := 4, min_time := 0, max_time := 0,
               last_time := 4, paused := false, stops := 0 } := by
  obtain ⟨sample, hs, _, _, hpresent⟩ :=
    start_sets_clock_start example_paused ⟨0, 9, 0⟩ "a" rfl (by decide)
  have h := hpresent ⟨1, 4, 0, 0, 4, true, 0⟩ (by simp [example_paused, Records.find])
  simp [take_time, example_paused] at hs
  subst hs
  rw [h]
  simp

/-- Claim C12: in an enabled registry, whatever the mode, for every name that has a record
and every tick count returned by `clock()`, `pause` succeeds and, with the lapse being the
tick count minus `clock_start` (never divided by `CLOCKS_PER_SEC`), adds the lapse to
`last_time` and to `total_time` and leaves `stops`, `min_time`, `max_time`, `clock_start`
and `paused` unchanged. -/
theorem pause_accumulates (sw : Stopwatch) (env : TimeSource) (perf_name : String)
    (r : PerformanceData) (hactive : sw.active = true)
    (hrec : Records.find sw.records_of perf_name = some r) :
    (pause sw env perf_name).result = Except.ok () ∧
    Records.find (pause sw env perf_name).state.records_of perf_name
      = some { clock_start := r.clock_start,
               total_time := r.total_time + ((env.clock : ℚ) - r.clock_start),
               min_time := r.min_time,
               max_time := r.max_time,
               last_time := r.last_time + ((env.clock : ℚ) - r.clock_start),
               paused := r.paused,
               stops := r.stops } :=
  ⟨pause_result sw env perf_name r hrec, pause_find sw env perf_name r hactive hrec⟩

/-- The theorem of claim C12 at a concrete input: in `REAL_TIME` mode, 7 ticks on a record
started at second 1 add 6 to a `last_time` of 3 and to a total of 5. -/
theorem pause_accumulates_witness :
    Records.find (pause example_stopped ⟨7, 0, 0⟩ "a").state.records_of "a"
      = some { clock_start := 1, total_time := 11, min_time := 2, max_time := 3,
               last_time := 9, paused := false, stops := 2 } := by
  have h := (pause_accumulates example_stopped ⟨7, 0, 0⟩ "a" ⟨1, 5, 2, 3, 3, false, 2⟩ rfl
    (by simp [example_stopped, Records.find])).2
  rw [h]
  norm_num

/-- Claim C13 fails on the code: after `start`, `pause`, `start` on the name `a`, with
`clock()` returning 1000, 5000 and 6000, `pause` has accumulated 4000 into `last_time` and
left `paused` false, so the second `start` sets `last_time` back to 0. -/
theorem resume_resets_last_time :
    Records.find (pause (start example_cpu_fresh ⟨1000, 0, 0⟩ "a").state
        ⟨5000, 0, 0⟩ "a").state.records_of "a"
      = some { clock_start := 1000, total_time := 4000, min_time := 0, max_time := 0,
               last_time := 4000, paused := false, stops := 0 } ∧
    (start (pause (start example_cpu_fresh ⟨1000, 0, 0⟩ "a").state
        ⟨5000, 0, 0⟩ "a").state ⟨6000, 0, 0⟩ "a").result = Except.ok () ∧
    Records.find (start (pause (start example_cpu_fresh ⟨1000, 0, 0⟩ "a").state
        ⟨5000, 0, 0⟩ "a").state ⟨6000, 0, 0⟩ "a").state.records_of "a"
      = some { clock_start := 6000, total_time := 4000, min_time := 0, max_time := 0,
               last_time := 0, paused := false, stops := 0 } := by
  have h1 : (start example_cpu_fresh ⟨1000, 0, 0⟩ "a").state
      = ⟨true, StopwatchMode.CPU_TIME, [("a", ⟨1000, 0, 0, 0, 0, false, 0⟩)]⟩ := by
    simp [start, example_cpu_fresh, take_time, Records.insert, Records.find, Records.place,
      Records.update, PerformanceData.new]
  have h2 : (pause ⟨true, StopwatchMode.CPU_TIME, [("a", ⟨1000, 0, 0, 0, 0, false, 0⟩)]⟩
      ⟨5000, 0, 0⟩ "a").state
      = ⟨true, StopwatchMode.CPU_TIME, [("a", ⟨1000, 4000, 0, 0, 4000, false, 0⟩)]⟩ := by
    simp [pause, performance_exists, Records.find, Records.update]
    norm_num
  rw [h1, h2]
  refine ⟨by simp [Records.find], ?_, ?_⟩
  · simp [start, take_time, Records.insert, Records.find]
  · simp [start, take_time, Records.insert, Records.find, Records.update]

/-- Claim C14, as amended: in every registry reached from a new one by any sequence of
calls, successful or failing, every record has `paused` false.  So the record that `start`
looks up is never paused, and every `start` that succeeds in an enabled registry leaves
`last_time` at 0; in a disabled registry `start` succeeds without changing anything. -/
theorem paused_is_never_set (CLOCKS_PER_SEC : ℚ) (calls : List Call) :
    (∀ p ∈ (run CLOCKS_PER_SEC init calls).records_of, p.2.paused = false) ∧
    (∀ (perf_name : String) (r : PerformanceData),
      Records.find (run CLOCKS_PER_SEC init calls).records_of perf_name = some r →
      r.paused = false) ∧
    (∀ (perf_name : String) (r : PerformanceData),
      Records.find (Records.insert (run CLOCKS_PER_SEC init calls).records_of perf_name
        PerformanceData.new) perf_name = some r →
      r.paused = false) ∧
    (∀ (env : TimeSource) (perf_name : String),
      (run CLOCKS_PER_SEC init calls).active = true →
      (start (run CLOCKS_PER_SEC init calls) env perf_name).result = Except.ok () →
      ∃ r : PerformanceData,
        Records.find (start (run CLOCKS_PER_SEC init calls) env perf_name).state.records_of
          perf_name = some r ∧
        r.last_time = 0) ∧
    (∀ (env : TimeSource) (perf_name : String),
      (run CLOCKS_PER_SEC init calls).active = false →
      start (run CLOCKS_PER_SEC init calls) env perf_name
        = ⟨run CLOCKS_PER_SEC init calls, Except.ok ()⟩) := by
  have hall := run_keeps_not_paused CLOCKS_PER_SEC calls
  generalize run CLOCKS_PER_SEC init calls = sw at hall
  have hfind : ∀ (perf_name : String) (r : PerformanceData),
      Records.find sw.records_of perf_name = some r → r.paused = false :=
    fun n r hr => hall (n, r) (Records.mem_of_find _ _ _ hr)
  refine ⟨hall, hfind, ?_, ?_, ?_⟩
  · intro n r hr
    exact Records.forall_insert (fun v => v.paused = false) _ n _ rfl hall (n, r)
      (Records.mem_of_find _ _ _ hr)
  · intro env n hactive hok
    cases ht : take_time sw env with
    | error e =>
      have ht2 : ∀ (a : Bool) (m : Records), take_time ⟨a, sw.mode, m⟩ env = Except.error e :=
        fun a m => (take_time_congr sw ⟨a, sw.mode, m⟩ env rfl).trans ht
      simp [start, hactive, ht2] at hok
    | ok t =>
      cases hrec : Records.find sw.records_of n with
      | none => exact ⟨_, start_find_absent sw env n t hactive ht hrec, rfl⟩
      | some r =>
        refine ⟨_, start_find_present sw env n r t hactive ht hrec, ?_⟩
        simp [hfind n r hrec]
  · intro env n hoff
    simp [start, hoff]

/-- The theorem of claim C14 at a concrete sequence of calls: after a full cycle, a new
`start` in the enabled registry leaves `last_time` at 0. -/
theorem paused_is_never_set_witness :
    ∃ r : PerformanceData,
      Records.find (start (run 1000000 init
          [Call.set_mode StopwatchMode.REAL_TIME, Call.start ⟨0, 1, 0⟩ "a",
           Call.stop ⟨0, 3, 0⟩ "a"]) ⟨0, 9, 0⟩ "a").state.records_of "a" = some r ∧
      r.last_time = 0 :=
  (paused_is_never_set 1000000
      [Call.set_mode StopwatchMode.REAL_TIME, Call.start ⟨0, 1, 0⟩ "a",
       Call.stop ⟨0, 3, 0⟩ "a"]).2.2.2.1 ⟨0, 9, 0⟩ "a"
    (by simp [run, step, start_active, stop_active, set_mode, init])
    (by
      apply start_result _ _ _ 9
      simp [take_time, run, step, start_mode, stop_mode, set_mode, init])

/-- Claim C14 as stated fails: after a cycle with a lapse of 2 seconds and `turn_off`, the
registry is disabled, `start` returns without error and `last_time` is still 2. -/
theorem disabled_start_counterexample :
    (start (run 1000000 init
        [Call.set_mode StopwatchMode.REAL_TIME, Call.start ⟨0, 1, 0⟩ "a",
         Call.stop ⟨0, 3, 0⟩ "a", Call.turn_off ""]) ⟨0, 9, 0⟩ "a").result = Except.ok () ∧
    Records.find (start (run 1000000 init
        [Call.set_mode StopwatchMode.REAL_TIME, Call.start ⟨0, 1, 0⟩ "a",
         Call.stop ⟨0, 3, 0⟩ "a", Call.turn_off ""]) ⟨0, 9, 0⟩ "a").state.records_of "a"
      = some { clock_start := 1, total_time := 2, min_time := 2, max_time := 2,
               last_time := 2, paused := false, stops := 1 } := by
  have hrun : run 1000000 init
      [Call.set_mode StopwatchMode.REAL_TIME, Call.start ⟨0, 1, 0⟩ "a",
       Call.stop ⟨0, 3, 0⟩ "a", Call.turn_off ""]
      = ⟨false, StopwatchMode.REAL_TIME, [("a", ⟨1, 2, 2, 2, 2, false, 1⟩)]⟩ := by
    simp [run, step, set_mode, init, turn_off, stop, start, take_time, Records.insert,
      Records.find, Records.place, Records.update, performance_exists, PerformanceData.new]
    norm_num
  rw [hrun]
  simp [start, Records.find]

/-- Claim C15: in an enabled registry, for every name that has a record, `report` succeeds,
leaves the object unchanged and appends to the sink exactly ten lines: an empty line, a bar,
"Tracking performance: " followed by the name, the same bar, the lines for the average, the
minimum, the maximum and the total, the line for the number of stops, and an empty line.
The bar consists of `=` only and its length is 22 plus the length of the name. -/
theorem report_format (fmt : LongDouble → String) (sw : Stopwatch) (perf_name : String)
    (output : String) (r : PerformanceData)
    (hactive : sw.active = true)
    (hrec : Records.find sw.records_of perf_name = some r) :
    ∃ bar : String,
      bar.data = List.replicate (22 + perf_name.utf8ByteSize) '=' ∧
      bar.length = 22 + perf_name.utf8ByteSize ∧
      report fmt sw perf_name output
        = (⟨sw, Except.ok ()⟩,
           output
            ++ ("" ++ "\n")
            ++ (bar ++ "\n")
            ++ ("Tracking performance: " ++ perf_name ++ "\n")
            ++ (bar ++ "\n")
            ++ ("  *  Avg. time " ++ fmt (LongDouble.div r.total_time (r.stops : ℚ))
                  ++ " sec" ++ "\n")
            ++ ("  *  Min. time " ++ fmt (LongDouble.finite r.min_time) ++ " sec" ++ "\n")
            ++ ("  *  Max. time " ++ fmt (LongDouble.finite r.max_time) ++ " sec" ++ "\n")
            ++ ("  *  Tot. time " ++ fmt (LongDouble.finite r.total_time) ++ " sec" ++ "\n")
            ++ ("  *  Stops " ++ toString r.stops ++ "\n")
            ++ ("" ++ "\n")) := by
  have hdata : ("======================" ++ bar_loop perf_name.utf8ByteSize "").data
      = List.replicate (22 + perf_name.utf8ByteSize) '=' := by
    rw [String.data_append, bar_loop_data, List.replicate_add]
    rfl
  refine ⟨"======================" ++ bar_loop perf_name.utf8ByteSize "", hdata, ?_, ?_⟩
  · rw [String.length, hdata, List.length_replicate]
  · simp only [report, hactive, hrec, Bool.not_true, Bool.false_eq_true, if_false,
      String.append_assoc, String.empty_append]
/-- The theorem of claim C15 at a concrete input: the report of the timer `a`, whose bar
has 23 characters. -/
theorem report_format_witness :
    (report (fun _ => "x") example_stopped "a" "").2
      = "\n=======================\nTracking performance: a\n=======================\n"
        ++ "  *  Avg. time x sec\n  *  Min. time x sec\n  *  Max. time x sec\n"
        ++ "  *  Tot. time x sec\n  *  Stops 2\n\n" := by
  obtain ⟨bar, hdata, _, hreport⟩ :=
    report_format (fun _ => "x") example_stopped "a" "" ⟨1, 5, 2, 3, 3, false, 2⟩ rfl
      (by simp [example_stopped, Records.find])
  have hbar : bar = "=======================" := by
    apply String.ext
    rw [hdata]
    rfl
  rw [hreport, hbar]
  rfl

/-- Claim C16: for every name whose record has `stops = 0`, `get_average_time` does not
return a finite number: the division of `total_time` by zero gives an infinity with
the sign of `total_time`, or NaN when `total_time` is 0. -/
theorem average_without_stops (sw : Stopwatch) (perf_name : String) (r : PerformanceData)
    (hrec : Records.find sw.records_of perf_name = some r) (hstops : r.stops = 0) :
    (get_average_time sw perf_name).result
      = Except.ok (if 0 < r.total_time then LongDouble.pos_inf
                   else if r.total_time < 0 then LongDouble.neg_inf else LongDouble.nan) ∧
    ∀ q : ℚ, (get_average_time sw perf_name).result ≠ Except.ok (LongDouble.finite q) := by
  have h : (get_average_time sw perf_name).result
      = Except.ok (if 0 < r.total_time then LongDouble.pos_inf
                   else if r.total_time < 0 then LongDouble.neg_inf else LongDouble.nan) := by
    rw [get_average_time_of_find sw perf_name r hrec]
    simp [LongDouble.div, hstops]
  refine ⟨h, fun q => ?_⟩
  rw [h]
  split
  · simp
  · split <;> simp

/-- The theorem of claim C16 at a concrete input: a timer started and not yet stopped. -/
theorem average_without_stops_witness :
    (get_average_time example_running "a").result = Except.ok LongDouble.nan := by
  have h := (average_without_stops example_running "a" ⟨1, 0, 0, 0, 0, false, 0⟩
    (by simp [example_running, Records.find]) rfl).1
  rw [h]
  simp

/-- Claim C18: in an enabled registry whose mode is `NONE`, `start` of a name that has no
record fails with "Clock not initialized to a time taking mode!" after it has inserted an
all-zero record for the name: `get_total_time`, which failed before the call, returns 0
after it. -/
theorem failed_start_inserts_record (sw : Stopwatch) (env : TimeSource) (perf_name : String)
    (hactive : sw.active = true) (hmode : sw.mode = StopwatchMode.NONE)
    (habsent : Records.find sw.records_of perf_name = none) :
    (start sw env perf_name).result
      = Except.error ⟨"Clock not initialized to a time taking mode!"⟩ ∧
    Records.find (start sw env perf_name).state.records_of perf_name
      = some { clock_start := 0, total_time := 0, min_time := 0, max_time := 0,
               last_time := 0, paused := false, stops := 0 } ∧
    (get_total_time (start sw env perf_name).state perf_name).result = Except.ok 0 ∧
    (get_total_time sw perf_name).result
      = Except.error ⟨"Performance not initialized."⟩ := by
  have hfind : Records.find (start sw env perf_name).state.records_of perf_name
      = some { clock_start := 0, total_time := 0, min_time := 0, max_time := 0,
               last_time := 0, paused := false, stops := 0 } := by
    simp only [start, hactive, take_time, hmode, Bool.not_true, Bool.false_eq_true, if_false]
    simp only [reduceCtorEq, if_false]
    exact Records.find_insert_absent _ _ _ habsent
  refine ⟨?_, hfind, ?_, ?_⟩
  · simp [start, hactive, take_time, hmode, clock_not_initialized]
  · rw [get_total_time_of_find _ _ _ hfind]
  · simp [get_total_time, habsent, performance_not_initialized]

/-- The theorem of claim C18 at a concrete input: `start` on a new registry. -/
theorem failed_start_inserts_record_witness :
    (get_total_time (start init ⟨0, 0, 0⟩ "a").state "a").result = Except.ok 0 :=
  (failed_start_inserts_record init ⟨0, 0, 0⟩ "a" rfl rfl rfl).2.2.1

/-- Claim C19: in every registry reached from a new one by any sequence of calls, with any
readings of the clocks, every record has `min_time` at most `max_time`; and a further
sequence of calls that contains neither `reset` of a name nor `reset_all` keeps the record
of that name and does not lower its `max_time`. -/
theorem min_le_max_invariant (CLOCKS_PER_SEC : ℚ) (calls : List Call) :
    (∀ p ∈ (run CLOCKS_PER_SEC init calls).records_of, p.2.min_time ≤ p.2.max_time) ∧
    (∀ (perf_name : String) (r : PerformanceData),
      Records.find (run CLOCKS_PER_SEC init calls).records_of perf_name = some r →
      r.min_time ≤ r.max_time) ∧
    (∀ (more : List Call) (perf_name : String) (r : PerformanceData),
      (∀ c ∈ more, Call.resets perf_name c = false) →
      Records.find (run CLOCKS_PER_SEC init calls).records_of perf_name = some r →
      ∃ r2 : PerformanceData,
        Records.find (run CLOCKS_PER_SEC (run CLOCKS_PER_SEC init calls) more).records_of
          perf_name = some r2 ∧
        r.max_time ≤ r2.max_time) := by
  have hall : ∀ p ∈ (run CLOCKS_PER_SEC init calls).records_of,
      p.2.min_time ≤ p.2.max_time :=
    run_keeps CLOCKS_PER_SEC (fun m => ∀ p ∈ m, p.2.min_time ≤ p.2.max_time) (fun _ => True)
      (fun sw c _ h => step_keeps_min_le_max CLOCKS_PER_SEC sw c h) calls init
      (fun _ _ => trivial) (by simp [init])
  refine ⟨hall, fun n r hr => hall (n, r) (Records.mem_of_find _ _ _ hr), ?_⟩
  intro more n r hmore hr
  exact run_keeps CLOCKS_PER_SEC
    (fun m => ∃ r2, Records.find m n = some r2 ∧ r.max_time ≤ r2.max_time)
    (fun c => Call.resets n c = false)
    (fun sw c hc h => step_keeps_max_bound CLOCKS_PER_SEC n r.max_time sw c hc h)
    more (run CLOCKS_PER_SEC init calls) hmore ⟨r, hr, le_refl _⟩

/-- The theorem of claim C19 at a concrete sequence of calls: after lapses of 5, -7 and 0
seconds the record of `a` has `min_time` -7 and `max_time` 5. -/
theorem min_le_max_invariant_witness :
    Records.find (run 1000000 init
        [Call.set_mode StopwatchMode.REAL_TIME,
         Call.start ⟨0, 1, 0⟩ "a", Call.stop ⟨0, 6, 0⟩ "a",
         Call.start ⟨0, 9, 0⟩ "a", Call.stop ⟨0, 2, 0⟩ "a",
         Call.start ⟨0, 4, 0⟩ "a", Call.stop ⟨0, 4, 0⟩ "a"]).records_of "a"
      = some { clock_start := 4, total_time := -2, min_time := -7, max_time := 5,
               last_time := 0, paused := false, stops := 3 } ∧
    (-7 : ℚ) ≤ 5 := by
  have hfind : Records.find (run 1000000 init
        [Call.set_mode StopwatchMode.REAL_TIME,
         Call.start ⟨0, 1, 0⟩ "a", Call.stop ⟨0, 6, 0⟩ "a",
         Call.start ⟨0, 9, 0⟩ "a", Call.stop ⟨0, 2, 0⟩ "a",
         Call.start ⟨0, 4, 0⟩ "a", Call.stop ⟨0, 4, 0⟩ "a"]).records_of "a"
      = some { clock_start := 4, total_time := -2, min_time := -7, max_time := 5,
               last_time := 0, paused := false, stops := 3 } := by
    simp [run, step, set_mode, init, stop, start, take_time, Records.insert,
      Records.find, Records.place, Records.update, performance_exists, PerformanceData.new]
    norm_num
  exact ⟨hfind, (min_le_max_invariant 1000000
      [Call.set_mode StopwatchMode.REAL_TIME,
       Call.start ⟨0, 1, 0⟩ "a", Call.stop ⟨0, 6, 0⟩ "a",
       Call.start ⟨0, 9, 0⟩ "a", Call.stop ⟨0, 2, 0⟩ "a",
       Call.start ⟨0, 4, 0⟩ "a", Call.stop ⟨0, 4, 0⟩ "a"]).2.1 "a" _ hfind⟩

/-- Claim C20: for every registry and every two distinct names, `start`, `stop`, `pause`
and `reset` of the first name, whether they succeed or fail, leave the record of the second
name as it was, present or absent; and no call of any method removes a name. -/
theorem other_records_untouched (CLOCKS_PER_SEC : ℚ) (sw : Stopwatch) (env : TimeSource)
    (perf_name other : String) (hne : perf_name ≠ other) :
    Records.find (start sw env perf_name).state.records_of other
      = Records.find sw.records_of other ∧
    Records.find (stop CLOCKS_PER_SEC sw env perf_name).state.records_of other
      = Records.find sw.records_of other ∧
    Records.find (pause sw env perf_name).state.records_of other
      = Records.find sw.records_of other ∧
    Records.find (reset sw perf_name).state.records_of other
      = Records.find sw.records_of other ∧
    (∀ (c : Call) (known : String),
      (Records.find sw.records_of known).isSome = true →
      (Records.find (step CLOCKS_PER_SEC sw c).records_of known).isSome = true) :=
  ⟨start_find_ne sw env perf_name other hne,
   stop_find_ne CLOCKS_PER_SEC sw env perf_name other hne,
   pause_find_ne sw env perf_name other hne,
   reset_find_ne sw perf_name other hne,
   fun c known h => step_keeps_presence CLOCKS_PER_SEC known sw c h⟩

/-- The theorem of claim C20 at a concrete input: `stop` of `a` leaves the record of `b`. -/
theorem other_records_untouched_witness :
    Records.find (stop 1000000 example_two ⟨0, 9, 0⟩ "a").state.records_of "b"
      = some { clock_start := 4, total_time := 0, min_time := 0, max_time := 0,
               last_time := 0, paused := false, stops := 0 } := by
  have h := (other_records_untouched 1000000 example_two ⟨0, 9, 0⟩ "a" "b" (by decide)).2.1
  rw [h]
  simp [example_two, Records.find]

/-- Claim C17: in an enabled registry with a time mode selected, for every name with no
record and every non-empty sequence of cycles whose lapses `L1 .. Ln` are all strictly
positive, the `n` consecutive `start`/`stop` cycles all succeed and leave `stops = n`,
`total_time = L1 + ... + Ln`, `min_time` the least and `max_time` the greatest of the
lapses, `last_time = Ln`, and `get_average_time` returns `(L1 + ... + Ln) / n`.  The
lapse of a cycle is the sample at its `stop` minus the sample at its `start`, divided by
`CLOCKS_PER_SEC` in `CPU_TIME` mode; that `take_time` returns these samples is what says
that a mode is selected. -/
theorem n_cycles (CLOCKS_PER_SEC : ℚ) (sw : Stopwatch) (perf_name : String)
    (envs : List (TimeSource × TimeSource)) (lapses : List ℚ)
    (hactive : sw.active = true)
    (habsent : Records.find sw.records_of perf_name = none)
    (hlapses : List.Forall₂ (fun (p : TimeSource × TimeSource) (L : ℚ) =>
      ∃ s1 s2 : ℚ, take_time sw p.1 = Except.ok s1 ∧ take_time sw p.2 = Except.ok s2 ∧
        L = (if sw.mode = StopwatchMode.CPU_TIME
              then (s2 - s1) / CLOCKS_PER_SEC else s2 - s1)) envs lapses)
    (hpos : ∀ L ∈ lapses, 0 < L) (hne : lapses ≠ []) :
    ∃ (sw2 : Stopwatch) (r : PerformanceData),
      cycles CLOCKS_PER_SEC perf_name envs sw = ⟨sw2, Except.ok ()⟩ ∧
      Records.find sw2.records_of perf_name = some r ∧
      r.stops = lapses.length ∧
      r.total_time = lapses.sum ∧
      r.min_time ∈ lapses ∧ (∀ L ∈ lapses, r.min_time ≤ L) ∧
      r.max_time ∈ lapses ∧ (∀ L ∈ lapses, L ≤ r.max_time) ∧
      r.last_time = lapses.getLast hne ∧
      (get_average_time sw2 perf_name).result
        = Except.ok (LongDouble.finite (lapses.sum / (lapses.length : ℚ))) := by
  obtain ⟨sw2, r, hcyc, _, hpresent, hstops, htotal, hmin, hmax, hlast⟩ :=
    cycles_from CLOCKS_PER_SEC perf_name sw envs lapses sw PerformanceData.new hactive rfl
      (by rw [habsent]; rfl) rfl hlapses
  have hfind := hpresent (Or.inr hne)
  cases lapses with
  | nil => exact absurd rfl hne
  | cons L rest =>
    have hL : 0 < L := hpos L (List.mem_cons_self _ _)
    have hrest : ∀ x ∈ rest, 0 < x := fun x hx => hpos x (List.mem_cons_of_mem _ hx)
    have hmin2 : r.min_time
        = rest.foldl (fun (m L : ℚ) => if L ≤ m ∨ m = 0 then L else m) L := by
      rw [hmin]
      simp [PerformanceData.new]
    have hmax2 : r.max_time = rest.foldl max L := by
      rw [hmax]
      simp [PerformanceData.new, max_eq_right hL.le]
    have hstops2 : r.stops = (L :: rest).length := by
      rw [hstops]
      simp [PerformanceData.new]
    have htotal2 : r.total_time = (L :: rest).sum := by
      rw [htotal]
      simp [PerformanceData.new]
    obtain ⟨hminmem, hminle⟩ := min_fold_spec rest L hL hrest
    obtain ⟨hmaxmem, hmaxle⟩ := max_fold_spec rest L
    refine ⟨sw2, r, hcyc, hfind, hstops2, htotal2, ?_, ?_, ?_, ?_, ?_, ?_⟩
    · rw [hmin2]; exact hminmem
    · rw [hmin2]; exact hminle
    · rw [hmax2]; exact hmaxmem
    · rw [hmax2]; exact hmaxle
    · rw [hlast, List.getLast_eq_getLastD, List.getLastD_cons]
    · rw [get_average_time_of_find sw2 perf_name r hfind, hstops2, htotal2]
      have hlen : ((L :: rest).length : ℚ) ≠ 0 := by
        simp only [List.length_cons]
        push_cast
        positivity
      simp only [LongDouble.div, hlen, ne_eq, not_false_eq_true, if_true]

/-- The theorem of claim C17 at a concrete input: three cycles with lapses of 2, 1 and 4
seconds give the average 7/3. -/
theorem n_cycles_witness :
    (get_average_time (cycles 1000000 "a"
        [(⟨0, 1, 0⟩, ⟨0, 3, 0⟩), (⟨0, 5, 0⟩, ⟨0, 6, 0⟩), (⟨0, 7, 0⟩, ⟨0, 11, 0⟩)]
        example_fresh).state "a").result
      = Except.ok (LongDouble.finite (7 / 3)) := by
  obtain ⟨sw2, r, hcyc, _, _, _, _, _, _, _, _, havg⟩ :=
    n_cycles 1000000 example_fresh "a"
      [(⟨0, 1, 0⟩, ⟨0, 3, 0⟩), (⟨0, 5, 0⟩, ⟨0, 6, 0⟩), (⟨0, 7, 0⟩, ⟨0, 11, 0⟩)] [2, 1, 4]
      rfl rfl
      (List.Forall₂.cons ⟨1, 3, by simp [take_time, example_fresh],
          by simp [take_time, example_fresh], by simp [example_fresh]; norm_num⟩
        (List.Forall₂.cons ⟨5, 6, by simp [take_time, example_fresh],
            by simp [take_time, example_fresh], by simp [example_fresh]; norm_num⟩
          (List.Forall₂.cons ⟨7, 11, by simp [take_time, example_fresh],
              by simp [take_time, example_fresh], by simp [example_fresh]; norm_num⟩
            List.Forall₂.nil)))
      (by
        intro L hL
        simp only [List.mem_cons, List.mem_singleton, List.not_mem_nil, or_false] at hL
        rcases hL with h | h | h <;> rw [h] <;> norm_num)
      (by simp)
  rw [hcyc, havg]
  norm_num

end Stopwatch
